import Mathlib

/-!
# Retrieval-market connector: the fake client API

A shallow embedding of `RetrievalMarketClientFakeAPI`
(`internal/app/go-filecoin/retrieval_market_connector/testing.go`).

* Go `error` values are `Option String` (`none` is `nil`).
* Go pointers are `Option`s (`none` is the nil pointer); a dereference of a nil
  pointer makes the method return `none` (the Go panic).
* `uint64` values are `Nat`s, every increment is taken `% 2 ^ 64`.
* Go maps are finite association lists with unique keys (`AList`); the order in
  which `range` visits a map is an explicit argument (`IterOrder`).
* Methods that mutate the receiver return the new receiver.
* A state of the fake is a snapshot by value: a pointer field holds what it
  points to. A write through a pointer that the fake shares with its callers
  (the `*SignedMessage`, `*MessageReceipt` and `*Block` that `Wait` hands to the
  continuation, the `*big.Int` of an amount) is a step of its own
  (`SharedWrite`), as is an assignment by the test to a field (`TestSets`).
-/

namespace retrievalmarketconnector

/-- The Go `error` interface: `none` is `nil`. -/
abbrev GoError := Option String

/-- Number of values of a `uint64`. -/
def uint64Size : Nat := 18446744073709551616

/-- Modelled from the spec: the type `address.Address` of package go-address is
not under src/. The spec calls it an opaque identifier with an undefined
sentinel; the library wraps one byte string, which is what is kept here. -/
structure Address where
  str : List Nat
deriving DecidableEq, Repr

/-- The sentinel `address.Undef`, the zero value of `Address`. -/
def Address.Undef : Address := ⟨[]⟩

instance : Inhabited Address := ⟨Address.Undef⟩

/-- The method `Address.Bytes`: the wrapped byte string. -/
def Address.Bytes (a : Address) : List Nat := a.str

/-- Unsigned LEB128 encoding of `n`, at most `fuel + 1` bytes
(`varint.ToUvarint`; ten bytes hold every `uint64`). -/
def ToUvarintAux : Nat → Nat → List Nat
  | 0, n => [n % 128]
  | fuel + 1, n => if n < 128 then [n] else (n % 128 + 128) :: ToUvarintAux fuel (n / 128)

/-- The library function `varint.ToUvarint` on a `uint64`. -/
def ToUvarint (n : Nat) : List Nat := ToUvarintAux 9 n

/-- Modelled from the spec: `address.NewIDAddress` of package go-address is not
under src/. An ID address is the protocol byte `0` followed by the varint of the
id; the error it returns next to the address is always nil. -/
def NewIDAddress (id : Nat) : Address := ⟨0 :: ToUvarint (id % uint64Size)⟩

/-- A Go map keyed by addresses. -/
abbrev GoMap (V : Type) := AList (fun _ : Address => V)

/-- The expression `make(map[address.Address]V)`. -/
def GoMap.make {V : Type} : GoMap V := ∅

/-- The two-valued read `v, ok := m[k]`, as an option. -/
def GoMap.lookup {V : Type} (m : GoMap V) (k : Address) : Option V := AList.lookup k m

/-- The read `m[k]`: the zero value of `V` when `k` is absent. -/
def GoMap.get {V : Type} [Inhabited V] (m : GoMap V) (k : Address) : V :=
  (GoMap.lookup m k).getD default

/-- The assignment `m[k] = v`. -/
def GoMap.set {V : Type} (m : GoMap V) (k : Address) (v : V) : GoMap V := AList.insert k v m

/-- The order in which one `range` statement visits the entries of a map: Go
leaves it unspecified, any rearrangement of the entries may occur. -/
structure IterOrder (α : Type) where
  visit : List α → List α
  perm : ∀ l, (visit l).Perm l

/-- The iteration order that visits the entries as they are stored. -/
def IterOrder.stored {α : Type} : IterOrder α := ⟨fun l => l, fun l => List.Perm.refl l⟩

/-- The iteration order that visits the entries back to front. -/
def IterOrder.backwards {α : Type} : IterOrder α := ⟨List.reverse, List.reverse_perm⟩

/-- The type `tokenamount.TokenAmount`: a struct around a `*big.Int`, kept as
the number the pointer points to (`none` for the nil pointer). Copies of an
amount share the `*big.Int` in Go; what a write through the shared pointer does
to the fake is the step `SharedWrite.amounts`. -/
structure TokenAmount where
  Int : Option ℤ
deriving DecidableEq, Repr

instance : Inhabited TokenAmount := ⟨⟨none⟩⟩

/-- The function `tokenamount.FromInt`. -/
def tokenamount.FromInt (i : Nat) : TokenAmount := ⟨some (i % uint64Size : Nat)⟩

/-- The type `types.AttoFIL`: a struct around a `*big.Int`. -/
structure AttoFIL where
  Int : Option ℤ
deriving DecidableEq, Repr

instance : Inhabited AttoFIL := ⟨⟨none⟩⟩

/-- The function `types.NewAttoFIL`. -/
def types.NewAttoFIL (x : Option ℤ) : AttoFIL := ⟨x⟩

/-- The struct `PmtChanEntry`. -/
structure PmtChanEntry where
  Payee : Address
  Redeemed : TokenAmount
  ChannelID : Address
  FundsAvail : TokenAmount
deriving DecidableEq, Repr

instance : Inhabited PmtChanEntry := ⟨⟨Address.Undef, ⟨none⟩, Address.Undef, ⟨none⟩⟩⟩

/-- The struct `ChannelInfo` of the package, with the fields `GetChannelInfo`
fills. -/
structure ChannelInfo where
  Payee : Address
  Amount : AttoFIL
  Redeemed : AttoFIL
deriving DecidableEq, Repr

instance : Inhabited ChannelInfo := ⟨⟨Address.Undef, ⟨none⟩, ⟨none⟩⟩⟩

/-- The type `cid.Cid`: a struct around one string. -/
structure Cid where
  str : List Nat
deriving DecidableEq, Repr

/-- The value `cid.Undef`. -/
def Cid.Undef : Cid := ⟨[]⟩

instance : Inhabited Cid := ⟨Cid.Undef⟩

/-- The type `block.Block`; the fake only passes it on, so a block is kept as
its serialised bytes. -/
structure Block where
  raw : List Nat
deriving DecidableEq, Repr

/-- The struct `types.UnsignedMessage`. -/
structure UnsignedMessage where
  To : Address
  From : Address
  CallSeqNum : Nat
  Value : AttoFIL
  Method : Nat
  Params : List Nat
  GasPrice : AttoFIL
  GasLimit : Nat
deriving DecidableEq, Repr

/-- The struct `types.SignedMessage`. -/
structure SignedMessage where
  Message : UnsignedMessage
  Signature : List Nat
deriving DecidableEq, Repr

/-- The struct `gfm_types.Signature`; its field `Type` is `SigType` here. -/
structure Signature where
  SigType : String
  Data : List Nat
deriving DecidableEq, Repr

/-- The constant `gfm_types.KTBLS`. -/
def KTBLS : String := "bls"

/-- The struct `vm.MessageReceipt`; `GasUsed` is kept as a number, the zero
value `gas.Unit{}` being 0. -/
structure MessageReceipt where
  ExitCode : ℤ
  ReturnValue : List Nat
  GasUsed : ℤ
deriving DecidableEq, Repr

/-- The struct `RetrievalMarketClientFakeAPI`. -/
structure RetrievalMarketClientFakeAPI where
  AllocateLaneErr : GoError
  ExpectedLanes : GoMap Nat
  ExpectedPmtChans : GoMap PmtChanEntry
  ActualPmtChans : GoMap PmtChanEntry
  PayChBalanceErr : GoError
  Balance : TokenAmount
  BalanceErr : GoError
  WorkerAddr : Address
  WorkerAddrErr : GoError
  Nonce : Nat
  NonceErr : GoError
  Sig : Option Signature
  SigErr : GoError
  MsgSendCid : Cid
  MsgSendErr : GoError
  WaitErr : GoError
  ExpectedBlock : Option Block
  ExpectedMsgReceipt : Option MessageReceipt
  ExpectedSignedMsg : Option SignedMessage
deriving DecidableEq

/-- The helper `requireMakeTestFcAddr`; `r` is the value `rand.Uint64()` drew. -/
def requireMakeTestFcAddr (r : Nat) : Address := NewIDAddress r

/-- The constructor `NewRetrievalMarketClientFakeAPI`; `rAddr` and `rNonce` are
the two values `rand.Uint64()` drew, in the order of the struct literal. -/
def NewRetrievalMarketClientFakeAPI (rAddr rNonce : Nat) (bal : TokenAmount) :
    RetrievalMarketClientFakeAPI :=
  { AllocateLaneErr := none
    ExpectedLanes := GoMap.make
    ExpectedPmtChans := GoMap.make
    ActualPmtChans := GoMap.make
    PayChBalanceErr := none
    Balance := bal
    BalanceErr := none
    WorkerAddr := requireMakeTestFcAddr rAddr
    WorkerAddrErr := none
    Nonce := rNonce % uint64Size
    NonceErr := none
    Sig := none
    SigErr := none
    MsgSendCid := Cid.Undef
    MsgSendErr := none
    WaitErr := none
    ExpectedBlock := none
    ExpectedMsgReceipt := none
    ExpectedSignedMsg := none }

/-- The method `GetChannel`. -/
def GetChannel (rmFake : RetrievalMarketClientFakeAPI) (payer _payee : Address) :
    Address × GoError :=
  match rmFake.ActualPmtChans.lookup payer with
  | none => (Address.Undef, none)
  | some entry => (entry.ChannelID, none)

/-- The loop of `GetChannelInfo` over the entries in the order they are
visited. -/
def GetChannelInfo.loop (paymentChannel : Address) :
    List (Sigma fun _ : Address => PmtChanEntry) → Address × ChannelInfo × GoError
  | [] => (Address.Undef, default, some "no such ChannelID")
  | ⟨payer, entry⟩ :: rest =>
    if entry.ChannelID = paymentChannel then
      (payer,
       { Payee := entry.Payee
         Amount := types.NewAttoFIL entry.FundsAvail.Int
         Redeemed := types.NewAttoFIL entry.Redeemed.Int },
       none)
    else GetChannelInfo.loop paymentChannel rest

/-- The method `GetChannelInfo`; `order` is the order in which this call's
`range` visits `ActualPmtChans`. -/
def GetChannelInfo (rmFake : RetrievalMarketClientFakeAPI)
    (order : IterOrder (Sigma fun _ : Address => PmtChanEntry)) (paymentChannel : Address) :
    Address × ChannelInfo × GoError :=
  GetChannelInfo.loop paymentChannel (order.visit rmFake.ActualPmtChans.entries)

/-- The continuation handed to `Wait`: a Go function of the block, the signed
message and the receipt that returns an error and acts on the caller's state
`σ`. What it writes through the three pointers it receives is not part of this
function: the call of the continuation is the last action of `Wait`, so such a
write is `Wait` followed by a `SharedWrite` step. -/
abbrev WaitCallback (σ : Type) :=
  Option Block → Option SignedMessage → Option MessageReceipt → σ → GoError × σ

/-- The method `Wait`. The result is `none` when the call panics on the nil
`ExpectedSignedMsg`; otherwise it is the returned error, the fake after the call
and the caller's state after the call. -/
def Wait {σ : Type} (rmFake : RetrievalMarketClientFakeAPI) (_msgCid : Cid)
    (cb : WaitCallback σ) (w : σ) : Option (GoError × RetrievalMarketClientFakeAPI × σ) :=
  match rmFake.WaitErr with
  | some e => some (some e, rmFake, w)
  | none =>
    match rmFake.ExpectedSignedMsg with
    | none => none
    | some sm =>
      let clientAddr := sm.Message.From
      let rmFake1 : RetrievalMarketClientFakeAPI :=
        { rmFake with
          ActualPmtChans :=
            rmFake.ActualPmtChans.set clientAddr (rmFake.ExpectedPmtChans.get clientAddr) }
      let r := cb rmFake1.ExpectedBlock rmFake1.ExpectedSignedMsg rmFake1.ExpectedMsgReceipt w
      some (r.1, rmFake1, r.2)

/-- The method `GetBalance`. -/
def GetBalance (rmFake : RetrievalMarketClientFakeAPI) (_addr : Address) : AttoFIL × GoError :=
  (types.NewAttoFIL rmFake.Balance.Int, rmFake.BalanceErr)

/-- The method `NextNonce`: the returned pair and the fake after the call. -/
def NextNonce (rmFake : RetrievalMarketClientFakeAPI) (_addr : Address) :
    (Nat × GoError) × RetrievalMarketClientFakeAPI :=
  let rmFake1 : RetrievalMarketClientFakeAPI :=
    { rmFake with Nonce := (rmFake.Nonce + 1) % uint64Size }
  ((rmFake1.Nonce, rmFake1.NonceErr), rmFake1)

/-- The method `SignBytes`; `none` when the call panics on the nil `Sig`. -/
def SignBytes (rmFake : RetrievalMarketClientFakeAPI) (_data : List Nat) (_addr : Address) :
    Option (List Nat × GoError) :=
  match rmFake.Sig with
  | none => none
  | some sig => some (sig.Data, rmFake.SigErr)

/-- The arguments of `Send` after the context, none of which the fake reads. -/
structure SendArgs where
  sender : Address
  target : Address
  value : AttoFIL
  gasPrice : AttoFIL
  gasLimit : Nat
  bcast : Bool
  method : Nat
  params : List (List Nat)

/-- The method `Send`: the returned triple `(out, pubErrCh, err)` and the fake
after the call. The named result `err` is still nil when it is tested, so the
early return is never taken; the channel `pubErrCh` is always nil. -/
def Send (rmFake : RetrievalMarketClientFakeAPI) (_args : SendArgs) :
    (Cid × Option Unit × GoError) × RetrievalMarketClientFakeAPI :=
  let rmFake1 : RetrievalMarketClientFakeAPI :=
    { rmFake with Nonce := (rmFake.Nonce + 1) % uint64Size }
  let err : GoError := none
  match err with
  | some e => ((Cid.Undef, none, some e), rmFake1)
  | none => ((rmFake1.MsgSendCid, none, rmFake1.MsgSendErr), rmFake1)

/-- The method `AllocateLane`: the returned pair and the fake after the call. -/
def AllocateLane (rmFake : RetrievalMarketClientFakeAPI) (_client chid : Address) :
    (Nat × GoError) × RetrievalMarketClientFakeAPI :=
  match rmFake.ExpectedLanes.lookup chid with
  | some lane =>
    ((lane, none),
     { rmFake with ExpectedLanes := rmFake.ExpectedLanes.set chid ((lane + 1) % uint64Size) })
  | none => ((0, none), rmFake)

/-- What `StubMessageResponse` takes from outside the fake: the value drawn by
`rand.Uint64()`, the package constant `CreatePaymentChannelMethod`, the address
of the mock signer, and the outcomes of `UnsignedMessage.Marshal` and of the mock
signer's `SignBytes` (an error makes `require.NoError` stop the test). -/
structure StubEnv where
  randUint64 : Nat
  CreatePaymentChannelMethod : Nat
  mockSignerAddr : Address
  marshal : UnsignedMessage → Except String (List Nat)
  signBytes : List Nat → Address → Except String (List Nat)

/-- The method `StubMessageResponse`: the fake after the call, or `none` when a
`require.NoError` stops the test. -/
def StubMessageResponse (env : StubEnv) (rmFake : RetrievalMarketClientFakeAPI)
    (from_ to_ : Address) (value : AttoFIL) : Option RetrievalMarketClientFakeAPI :=
  let unsignedMsg : UnsignedMessage :=
    { To := to_
      From := from_
      CallSeqNum := 0
      Value := value
      Method := env.CreatePaymentChannelMethod
      Params := []
      GasPrice := ⟨none⟩
      GasLimit := 0 }
  let newAddr := NewIDAddress env.randUint64
  let rmFake1 : RetrievalMarketClientFakeAPI :=
    { rmFake with
      ExpectedPmtChans :=
        rmFake.ExpectedPmtChans.set from_
          { ChannelID := newAddr
            FundsAvail := ⟨value.Int⟩
            Redeemed := tokenamount.FromInt 0
            Payee := Address.Undef } }
  let rmFake2 : RetrievalMarketClientFakeAPI :=
    { rmFake1 with
      ExpectedMsgReceipt :=
        some { ExitCode := 0, ReturnValue := newAddr.Bytes, GasUsed := 0 } }
  match env.marshal unsignedMsg with
  | .error _ => none
  | .ok marshaled =>
    match env.signBytes marshaled env.mockSignerAddr with
    | .error _ => none
    | .ok sig =>
      let signature : Signature := { SigType := KTBLS, Data := sig }
      some
        { rmFake2 with
          Sig := some signature
          ExpectedSignedMsg := some { Message := unsignedMsg, Signature := sig } }

/-- The results of `n` successive `AllocateLane` calls for one channel, and the
fake after them. -/
def allocateLanes (client chid : Address) :
    Nat → RetrievalMarketClientFakeAPI → List (Nat × GoError) × RetrievalMarketClientFakeAPI
  | 0, rmFake => ([], rmFake)
  | n + 1, rmFake =>
    let r := AllocateLane rmFake client chid
    let rest := allocateLanes client chid n r.2
    (r.1 :: rest.1, rest.2)

/-- The results of `n` successive `NextNonce` calls, and the fake after them. -/
def nextNonces (addr : Address) :
    Nat → RetrievalMarketClientFakeAPI → List (Nat × GoError) × RetrievalMarketClientFakeAPI
  | 0, rmFake => ([], rmFake)
  | n + 1, rmFake =>
    let r := NextNonce rmFake addr
    let rest := nextNonces addr n r.2
    (r.1 :: rest.1, rest.2)

/-- A continuation that records, next to the caller's state, the arguments of
every invocation of `cb`. -/
def recording {σ : Type} (cb : WaitCallback σ) :
    WaitCallback (σ × List (Option Block × Option SignedMessage × Option MessageReceipt)) :=
  fun b sm r s => ((cb b sm r s.1).1, ((cb b sm r s.1).2, s.2 ++ [(b, sm, r)]))

/-- An environment for `StubMessageResponse` in which marshalling and signing
succeed: the draw is 77, the message marshals to its `CallSeqNum` and `Method`
bytes, the signer prefixes the byte 9. -/
def sampleEnv : StubEnv :=
  { randUint64 := 77
    CreatePaymentChannelMethod := 2
    mockSignerAddr := NewIDAddress 5
    marshal := fun m => .ok [m.CallSeqNum, m.Method]
    signBytes := fun b _ => .ok (9 :: b) }

/-- A payer address used in the examples. -/
def samplePayer : Address := NewIDAddress 100

/-- A payee address used in the examples. -/
def samplePayee : Address := NewIDAddress 200

/-- A fake as its constructor builds it, with balance 5. -/
def sampleFresh : RetrievalMarketClientFakeAPI :=
  NewRetrievalMarketClientFakeAPI 1 41 ⟨some 5⟩

/-- A continuation on a call counter that fails exactly on a receipt with a
non-zero exit code, as a channel creator does. -/
def sampleCallback : WaitCallback Nat :=
  fun _ _ r n =>
    match r with
    | some rcpt => (if rcpt.ExitCode = 0 then none else some "channel creation failed", n + 1)
    | none => (some "no receipt", n + 1)

/-- A fake whose registry holds one channel, of `samplePayer`. -/
def sampleRegistered : RetrievalMarketClientFakeAPI :=
  { sampleFresh with
    ActualPmtChans :=
      GoMap.set GoMap.make samplePayer
        { Payee := Address.Undef
          Redeemed := tokenamount.FromInt 0
          ChannelID := NewIDAddress 77
          FundsAvail := ⟨some 1000⟩ } }

/-- The fake `StubMessageResponse sampleEnv sampleFresh samplePayer samplePayee
1000` leaves, in which a test then replaced the receipt's exit code by 1. -/
def sampleRejected : RetrievalMarketClientFakeAPI :=
  { sampleFresh with
    ExpectedPmtChans :=
      GoMap.set GoMap.make samplePayer
        { Payee := Address.Undef
          Redeemed := tokenamount.FromInt 0
          ChannelID := NewIDAddress 77
          FundsAvail := ⟨some 1000⟩ }
    ExpectedMsgReceipt := some { ExitCode := 1, ReturnValue := (NewIDAddress 77).Bytes, GasUsed := 0 }
    Sig := some { SigType := KTBLS, Data := [9, 0, 2] }
    ExpectedSignedMsg :=
      some
        { Message :=
            { To := samplePayee
              From := samplePayer
              CallSeqNum := 0
              Value := ⟨some 1000⟩
              Method := 2
              Params := []
              GasPrice := ⟨none⟩
              GasLimit := 0 }
          Signature := [9, 0, 2] } }

/-- A channel address used in the examples. -/
def sampleChannel : Address := NewIDAddress 77

/-- A fresh fake on which a test has set the lane counter of `sampleChannel`
to 0. -/
def sampleLanes : RetrievalMarketClientFakeAPI :=
  { sampleFresh with ExpectedLanes := sampleFresh.ExpectedLanes.set sampleChannel 0 }

/-- A fake as its constructor builds it when the draw for `Nonce` is
`2 ^ 64 - 2`. -/
def sampleHighNonce : RetrievalMarketClientFakeAPI :=
  NewRetrievalMarketClientFakeAPI 1 18446744073709551614 ⟨some 5⟩

/-- A fresh fake on which a test has set `WaitErr`. -/
def sampleWaitErr : RetrievalMarketClientFakeAPI :=
  { sampleFresh with WaitErr := some "wait failed" }

/-- A continuation on a call counter that always fails. -/
def sampleFailing : WaitCallback Nat := fun _ _ _ n => (some "continuation failed", n + 1)

/-- The comparison `a <= b` of two `*big.Int` amounts: it holds when both
pointers are set and the numbers compare; on a nil pointer it does not hold. -/
def amountLe (a b : Option ℤ) : Bool :=
  match a, b with
  | some x, some y => decide (x ≤ y)
  | _, _ => false

/-- The entry `StubMessageResponse` stores under the payer when the draw of
`rand.Uint64()` is `r` and the funding value is `value`. -/
def stubbedEntry (r : Nat) (value : AttoFIL) : PmtChanEntry :=
  { ChannelID := NewIDAddress r
    FundsAvail := ⟨value.Int⟩
    Redeemed := tokenamount.FromInt 0
    Payee := Address.Undef }

/-- Two entries that hold the same addresses and the same amount pointers: they
differ at most in the numbers behind the pointers that are not nil. -/
def PmtChanEntry.sameHandles (e e1 : PmtChanEntry) : Prop :=
  e1.Payee = e.Payee ∧ e1.ChannelID = e.ChannelID ∧
  e1.Redeemed.Int.isSome = e.Redeemed.Int.isSome ∧
  e1.FundsAvail.Int.isSome = e.FundsAvail.Int.isSome

/-- Two channel maps with the same keys whose entries hold the same addresses
and amount pointers. -/
def numbersOnly (m m1 : GoMap PmtChanEntry) : Prop :=
  (∀ p e, m.lookup p = some e → ∃ e1, m1.lookup p = some e1 ∧ e.sameHandles e1) ∧
  (∀ p e1, m1.lookup p = some e1 → ∃ e, m.lookup p = some e ∧ e.sameHandles e1)

/-- An assignment by the test to fields of the fake. Every field can be assigned
but the two channel maps, `Sig` and `ExpectedSignedMsg`, which
`StubMessageResponse` and `Wait` maintain. -/
def TestSets (f f1 : RetrievalMarketClientFakeAPI) : Prop :=
  f1.ExpectedPmtChans = f.ExpectedPmtChans ∧ f1.ActualPmtChans = f.ActualPmtChans ∧
  f1.Sig = f.Sig ∧ f1.ExpectedSignedMsg = f.ExpectedSignedMsg

/-- A write through a pointer that the fake shares with its callers, as the
snapshot sees it. `Wait` hands the continuation the fake's own `*SignedMessage`,
`*MessageReceipt` and `*Block`; `SignBytes` returns the bytes of `Sig`; the
`*big.Int` of a funding value is shared by the caller's value, the message and
the entries of both channel maps, and `GetChannelInfo` returns the pointers of an
entry. A write through such a pointer changes what is pointed to and never
whether a pointer is nil. Which amounts share one `*big.Int` is not recorded in
a snapshot, so `amounts` lets the numbers of all entries change. -/
inductive SharedWrite : RetrievalMarketClientFakeAPI → RetrievalMarketClientFakeAPI → Prop
  | signedMsg (f : RetrievalMarketClientFakeAPI) (sm sm1 : SignedMessage) :
      f.ExpectedSignedMsg = some sm → SharedWrite f { f with ExpectedSignedMsg := some sm1 }
  | receipt (f : RetrievalMarketClientFakeAPI) (r r1 : MessageReceipt) :
      f.ExpectedMsgReceipt = some r → SharedWrite f { f with ExpectedMsgReceipt := some r1 }
  | block (f : RetrievalMarketClientFakeAPI) (b b1 : Block) :
      f.ExpectedBlock = some b → SharedWrite f { f with ExpectedBlock := some b1 }
  | sig (f : RetrievalMarketClientFakeAPI) (s s1 : Signature) :
      f.Sig = some s → SharedWrite f { f with Sig := some s1 }
  | amounts (f : RetrievalMarketClientFakeAPI) (exp act : GoMap PmtChanEntry) :
      numbersOnly f.ExpectedPmtChans exp → numbersOnly f.ActualPmtChans act →
      SharedWrite f { f with ExpectedPmtChans := exp, ActualPmtChans := act }

/-- What happens to the fake outside its methods: the test assigns a field, or
a holder of a shared pointer writes through it. -/
def OutsideWrite (f f1 : RetrievalMarketClientFakeAPI) : Prop :=
  TestSets f f1 ∨ SharedWrite f f1

/-- No write from outside the methods. -/
def noOutsideWrite (_f _f1 : RetrievalMarketClientFakeAPI) : Prop := False

/-- The step leaves the `From` address of the stubbed message as it was. -/
def keepsFrom (f f1 : RetrievalMarketClientFakeAPI) : Prop :=
  f1.ExpectedSignedMsg.map (fun sm => sm.Message.From)
    = f.ExpectedSignedMsg.map (fun sm => sm.Message.From)

/-- The step leaves both channel maps, and so the amounts of their entries, as
they were. -/
def keepsAmounts (f f1 : RetrievalMarketClientFakeAPI) : Prop :=
  f1.ExpectedPmtChans = f.ExpectedPmtChans ∧ f1.ActualPmtChans = f.ActualPmtChans

/-- The writes from outside that do not write the `From` address of the stubbed
message. -/
def leavesFrom (f f1 : RetrievalMarketClientFakeAPI) : Prop :=
  OutsideWrite f f1 ∧ keepsFrom f f1

/-- The writes from outside that write neither the `From` address of the stubbed
message nor an amount of a channel entry. -/
def leavesFromAndAmounts (f f1 : RetrievalMarketClientFakeAPI) : Prop :=
  OutsideWrite f f1 ∧ keepsFrom f f1 ∧ keepsAmounts f f1

/-- The states of the fake that are reached from the constructor by calls of
`StubMessageResponse` (with funding values that satisfy `ok`), by calls of the
methods that write to the fake (`Wait`, `NextNonce`, `Send`, `AllocateLane`) and
by the writes from outside the methods that `ext` admits. The methods
`GetChannel`, `GetChannelInfo`, `GetBalance` and `SignBytes` only read. A
continuation that writes through the pointers it is handed is a `wait` step
followed by `outside` steps. The index `log` lists, latest first, the payer and
the entry that each call of `StubMessageResponse` stored in
`ExpectedPmtChans`. -/
inductive Reachable (ok : AttoFIL → Prop)
    (ext : RetrievalMarketClientFakeAPI → RetrievalMarketClientFakeAPI → Prop) :
    List (Address × PmtChanEntry) → RetrievalMarketClientFakeAPI → Prop
  | new (rAddr rNonce : Nat) (bal : TokenAmount) :
      Reachable ok ext [] (NewRetrievalMarketClientFakeAPI rAddr rNonce bal)
  | stub {log : List (Address × PmtChanEntry)} {f f1 : RetrievalMarketClientFakeAPI}
      (env : StubEnv) (from_ to_ : Address) (value : AttoFIL) :
      Reachable ok ext log f → ok value →
      StubMessageResponse env f from_ to_ value = some f1 →
      Reachable ok ext ((from_, f1.ExpectedPmtChans.get from_) :: log) f1
  | wait {log : List (Address × PmtChanEntry)} {f f1 : RetrievalMarketClientFakeAPI}
      {σ : Type} (msgCid : Cid) (cb : WaitCallback σ) (w w1 : σ) (e : GoError) :
      Reachable ok ext log f → Wait f msgCid cb w = some (e, f1, w1) →
      Reachable ok ext log f1
  | nextNonce {log : List (Address × PmtChanEntry)} {f : RetrievalMarketClientFakeAPI}
      (addr : Address) : Reachable ok ext log f → Reachable ok ext log (NextNonce f addr).2
  | send {log : List (Address × PmtChanEntry)} {f : RetrievalMarketClientFakeAPI}
      (args : SendArgs) : Reachable ok ext log f → Reachable ok ext log (Send f args).2
  | allocateLane {log : List (Address × PmtChanEntry)} {f : RetrievalMarketClientFakeAPI}
      (client chid : Address) :
      Reachable ok ext log f → Reachable ok ext log (AllocateLane f client chid).2
  | outside {log : List (Address × PmtChanEntry)} {f f1 : RetrievalMarketClientFakeAPI} :
      Reachable ok ext log f → ext f f1 → Reachable ok ext log f1

/-- Every funding value is admitted. -/
def anyValue : AttoFIL → Prop := fun _ => True

/-- The funding values that are set and not negative. -/
def nonNegValue : AttoFIL → Prop := fun v => ∃ n : ℤ, v.Int = some n ∧ 0 ≤ n

/-- One call on the shared counter: `NextNonce` after the test set `NonceErr`,
or `Send` after the test set `MsgSendErr`. -/
inductive NonceCall
  | nextNonce (addr : Address) (nonceErr : GoError)
  | send (args : SendArgs) (msgSendErr : GoError)

/-- The error one `NonceCall` returns and the fake after it. -/
def runNonceCall (rmFake : RetrievalMarketClientFakeAPI) :
    NonceCall → GoError × RetrievalMarketClientFakeAPI
  | .nextNonce addr nonceErr =>
    let r := NextNonce { rmFake with NonceErr := nonceErr } addr
    (r.1.2, r.2)
  | .send args msgSendErr =>
    let r := Send { rmFake with MsgSendErr := msgSendErr } args
    (r.1.2.2, r.2)

/-- The fake after a sequence of calls on the shared counter. -/
def runNonceCalls : List NonceCall → RetrievalMarketClientFakeAPI → RetrievalMarketClientFakeAPI
  | [], rmFake => rmFake
  | c :: cs, rmFake => runNonceCalls cs (runNonceCall rmFake c).2

/-- The message `StubMessageResponse sampleEnv _ samplePayer samplePayee value`
builds. -/
def sampleMessage (value : AttoFIL) : SignedMessage :=
  { Message :=
      { To := samplePayee
        From := samplePayer
        CallSeqNum := 0
        Value := value
        Method := 2
        Params := []
        GasPrice := ⟨none⟩
        GasLimit := 0 }
    Signature := [9, 0, 2] }

/-- The entry `StubMessageResponse sampleEnv _ _ _ value` stores. -/
def sampleEntry (value : AttoFIL) : PmtChanEntry :=
  { Payee := Address.Undef
    Redeemed := tokenamount.FromInt 0
    ChannelID := NewIDAddress 77
    FundsAvail := ⟨value.Int⟩ }

/-- The fake `StubMessageResponse sampleEnv sampleFresh samplePayer samplePayee
value` leaves. -/
def sampleStubbed (value : AttoFIL) : RetrievalMarketClientFakeAPI :=
  { sampleFresh with
    ExpectedPmtChans := GoMap.set GoMap.make samplePayer (sampleEntry value)
    ExpectedMsgReceipt := some { ExitCode := 0, ReturnValue := (NewIDAddress 77).Bytes, GasUsed := 0 }
    Sig := some { SigType := KTBLS, Data := [9, 0, 2] }
    ExpectedSignedMsg := some (sampleMessage value) }

/-- The fake a `Wait` on `sampleStubbed value` leaves. -/
def sampleCreated (value : AttoFIL) : RetrievalMarketClientFakeAPI :=
  { sampleStubbed value with
    ActualPmtChans := GoMap.set GoMap.make samplePayer (sampleEntry value) }

/-- A fake whose registry holds the same channel for two payers. -/
def sampleShared : RetrievalMarketClientFakeAPI :=
  { sampleFresh with
    ActualPmtChans :=
      GoMap.set (GoMap.set GoMap.make samplePayer (sampleEntry ⟨some 1000⟩)) samplePayee
        (sampleEntry ⟨some 1000⟩) }

/-- A fake with lane counters for two channels on which a test has set
`AllocateLaneErr`. -/
def sampleLaneErr : RetrievalMarketClientFakeAPI :=
  { sampleFresh with
    AllocateLaneErr := some "allocate lane failed"
    ExpectedLanes := GoMap.set (GoMap.set GoMap.make sampleChannel 7) samplePayee 3 }

/-- Arguments for `Send` used in the examples. -/
def sampleSendArgs : SendArgs :=
  { sender := samplePayer
    target := samplePayee
    value := ⟨some 1000⟩
    gasPrice := ⟨some 1⟩
    gasLimit := 300
    bcast := true
    method := 2
    params := [] }

/-- The stubbed message of `sampleCreated 1000` after a continuation wrote
`sm.Message.From = samplePayee` through the pointer `Wait` handed to it. -/
def sampleRedirectedMessage : SignedMessage :=
  { Message := { (sampleMessage ⟨some 1000⟩).Message with From := samplePayee }
    Signature := [9, 0, 2] }

/-- The fake `sampleCreated 1000` after that write. -/
def sampleRedirected : RetrievalMarketClientFakeAPI :=
  { sampleCreated ⟨some 1000⟩ with ExpectedSignedMsg := some sampleRedirectedMessage }

/-- The fake a `Wait` on `sampleRedirected` leaves: the zero entry is registered
under `samplePayee`. -/
def sampleMisfiled : RetrievalMarketClientFakeAPI :=
  { sampleRedirected with
    ActualPmtChans := GoMap.set sampleRedirected.ActualPmtChans samplePayee default }

/-- The fake `sampleCreated 1000` after the test set `SigErr` and `WaitErr`. -/
def sampleSigErr : RetrievalMarketClientFakeAPI :=
  { sampleCreated ⟨some 1000⟩ with SigErr := some "sign failed", WaitErr := some "wait failed" }

/-! ## The map operations -/

theorem GoMap.lookup_make {V : Type} (k : Address) :
    GoMap.lookup (GoMap.make : GoMap V) k = none := by
  simp [GoMap.lookup, GoMap.make]

theorem GoMap.lookup_set_self {V : Type} (m : GoMap V) (k : Address) (v : V) :
    GoMap.lookup (GoMap.set m k v) k = some v := by
  simp [GoMap.lookup, GoMap.set]

theorem GoMap.lookup_set_ne {V : Type} (m : GoMap V) (k k' : Address) (v : V) (h : k' ≠ k) :
    GoMap.lookup (GoMap.set m k v) k' = GoMap.lookup m k' := by
  simp [GoMap.lookup, GoMap.set, AList.lookup_insert_ne h]

theorem GoMap.entries_set_make {V : Type} (k : Address) (v : V) :
    (GoMap.set (GoMap.make : GoMap V) k v).entries = [⟨k, v⟩] := by
  simp [GoMap.set, GoMap.make]

theorem Address.eq_of_Bytes_eq {a b : Address} (h : a.Bytes = b.Bytes) : a = b := by
  cases a
  cases b
  simpa [Address.Bytes] using h

/-- What a successful `StubMessageResponse` leaves in the fake. -/
theorem StubMessageResponse_eq_some {env : StubEnv} {rmFake fake1 : RetrievalMarketClientFakeAPI}
    {from_ to_ : Address} {value : AttoFIL}
    (h : StubMessageResponse env rmFake from_ to_ value = some fake1) :
    ∃ sig sm,
      sm.Message.From = from_ ∧ sm.Message.To = to_ ∧ sm.Message.Value = value ∧
      fake1 =
        { rmFake with
          ExpectedPmtChans :=
            rmFake.ExpectedPmtChans.set from_
              { ChannelID := NewIDAddress env.randUint64
                FundsAvail := ⟨value.Int⟩
                Redeemed := tokenamount.FromInt 0
                Payee := Address.Undef }
          ExpectedMsgReceipt :=
            some { ExitCode := 0, ReturnValue := (NewIDAddress env.randUint64).Bytes, GasUsed := 0 }
          Sig := some sig
          ExpectedSignedMsg := some sm } := by
  unfold StubMessageResponse at h
  simp only at h
  split at h
  · exact absurd h (by simp)
  · split at h
    · exact absurd h (by simp)
    · rename_i sig _
      refine ⟨⟨KTBLS, sig⟩,
        ⟨⟨to_, from_, 0, value, env.CreatePaymentChannelMethod, [], ⟨none⟩, 0⟩, sig⟩,
        rfl, rfl, rfl, ?_⟩
      exact (Option.some.inj h).symm

/-! ## Channel lookup -/

/-- C1: for every state and every payer without an entry in `ActualPmtChans`,
`GetChannel` returns the undefined address and a nil error for every payee; and
in every state, for every payer and payee, the error of `GetChannel` is nil. -/
theorem GetChannel_absent_never_errors (rmFake : RetrievalMarketClientFakeAPI) (payer : Address)
    (h : rmFake.ActualPmtChans.lookup payer = none) :
    (∀ payee, GetChannel rmFake payer payee = (Address.Undef, none)) ∧
      ∀ (other : RetrievalMarketClientFakeAPI) (p q : Address), (GetChannel other p q).2 = none := by
  refine ⟨fun payee => ?_, fun other p q => ?_⟩
  · simp [GetChannel, h]
  · unfold GetChannel
    split <;> rfl

/-- Witness of C1: `samplePayee` has no channel in `sampleRegistered`. -/
theorem GetChannel_absent_never_errors_witness :
    sampleRegistered.ActualPmtChans.lookup samplePayee = none ∧
      ((∀ payee, GetChannel sampleRegistered samplePayee payee = (Address.Undef, none)) ∧
        ∀ (other : RetrievalMarketClientFakeAPI) (p q : Address),
          (GetChannel other p q).2 = none) :=
  ⟨by decide, GetChannel_absent_never_errors sampleRegistered samplePayee (by decide)⟩

/-! ## The creation flow -/

/-- The fake after a `Wait` that has no `WaitErr` and has a signed message. -/
theorem Wait_eq_of_no_WaitErr {σ : Type} (rmFake : RetrievalMarketClientFakeAPI) (msgCid : Cid)
    (cb : WaitCallback σ) (w : σ) (sm : SignedMessage) (hw : rmFake.WaitErr = none)
    (hsm : rmFake.ExpectedSignedMsg = some sm) :
    Wait rmFake msgCid cb w =
      some
        ((cb rmFake.ExpectedBlock (some sm) rmFake.ExpectedMsgReceipt w).1,
         { rmFake with
            ActualPmtChans :=
              rmFake.ActualPmtChans.set sm.Message.From
                (rmFake.ExpectedPmtChans.get sm.Message.From) },
         (cb rmFake.ExpectedBlock (some sm) rmFake.ExpectedMsgReceipt w).2) := by
  simp [Wait, hw, hsm]

/-- C2: on a fake built by `NewRetrievalMarketClientFakeAPI`, after
`StubMessageResponse from_ to_ value` and a `Wait` whose continuation returns
nil, the stubbed receipt has exit code 0, `Wait` returns nil, and for the
address `X` whose bytes are the receipt's return value (there is one)
`GetChannelInfo X` returns a nil error, `from_` as the payer, `Amount = value`
and `Redeemed = 0`, in every iteration order. -/
theorem GetChannelInfo_after_creation (env : StubEnv) (rAddr rNonce : Nat) (bal : TokenAmount)
    (from_ to_ : Address) (value : AttoFIL) (fake1 : RetrievalMarketClientFakeAPI)
    {σ : Type} (cb : WaitCallback σ) (w : σ) (msgCid : Cid)
    (hstub : StubMessageResponse env (NewRetrievalMarketClientFakeAPI rAddr rNonce bal)
      from_ to_ value = some fake1)
    (hcb : ∀ b sm r s, (cb b sm r s).1 = none) :
    fake1.WaitErr = none ∧
    ∃ rcpt fake2 w2,
      fake1.ExpectedMsgReceipt = some rcpt ∧ rcpt.ExitCode = 0 ∧
      Wait fake1 msgCid cb w = some (none, fake2, w2) ∧
      (∃ X : Address, X.Bytes = rcpt.ReturnValue) ∧
      ∀ (order : IterOrder (Sigma fun _ : Address => PmtChanEntry)) (X : Address),
        X.Bytes = rcpt.ReturnValue →
          (GetChannelInfo fake2 order X).2.2 = none ∧
          (GetChannelInfo fake2 order X).1 = from_ ∧
          (GetChannelInfo fake2 order X).2.1.Amount = value ∧
          (GetChannelInfo fake2 order X).2.1.Redeemed = ⟨some 0⟩ := by
  obtain ⟨sig, sm, hfrom, -, -, hf⟩ := StubMessageResponse_eq_some hstub
  have hw : fake1.WaitErr = none := by rw [hf]; rfl
  have hsm : fake1.ExpectedSignedMsg = some sm := by rw [hf]
  have hr : fake1.ExpectedMsgReceipt =
      some { ExitCode := 0, ReturnValue := (NewIDAddress env.randUint64).Bytes, GasUsed := 0 } := by
    rw [hf]
  have hact : fake1.ActualPmtChans = GoMap.make := by rw [hf]; rfl
  have hexp : fake1.ExpectedPmtChans = GoMap.set GoMap.make from_
      { ChannelID := NewIDAddress env.randUint64
        FundsAvail := ⟨value.Int⟩
        Redeemed := tokenamount.FromInt 0
        Payee := Address.Undef } := by rw [hf]; rfl
  have hW := Wait_eq_of_no_WaitErr fake1 msgCid cb w sm hw hsm
  rw [hcb] at hW
  refine ⟨hw, _, _, _, hr, rfl, hW, ⟨NewIDAddress env.randUint64, rfl⟩, ?_⟩
  intro order X hX
  have hXeq : X = NewIDAddress env.randUint64 := Address.eq_of_Bytes_eq hX
  subst hXeq
  have hentries := order.perm
    (GoMap.set (GoMap.make : GoMap PmtChanEntry) sm.Message.From
      (GoMap.get fake1.ExpectedPmtChans sm.Message.From)).entries
  rw [GoMap.entries_set_make, List.perm_singleton] at hentries
  simp only [GetChannelInfo, hact, GoMap.entries_set_make]
  rw [hentries, hfrom, hexp]
  simp [GetChannelInfo.loop, GoMap.get, GoMap.lookup_set_self, types.NewAttoFIL,
    tokenamount.FromInt]

/-- Witness of C2: the creation flow of `samplePayer` with value 1000 in
`sampleEnv`, confirmed by a continuation that returns nil. -/
theorem GetChannelInfo_after_creation_witness :
    ∃ fake1,
      StubMessageResponse sampleEnv (NewRetrievalMarketClientFakeAPI 1 41 ⟨some 5⟩)
        samplePayer samplePayee ⟨some 1000⟩ = some fake1 ∧
      (∀ (b : Option Block) (sm : Option SignedMessage) (r : Option MessageReceipt) (s : Nat),
        ((fun _ _ _ n => (none, n + 1) : WaitCallback Nat) b sm r s).1 = none) ∧
      (fake1.WaitErr = none ∧
      ∃ rcpt fake2 w2,
        fake1.ExpectedMsgReceipt = some rcpt ∧ rcpt.ExitCode = 0 ∧
        Wait fake1 Cid.Undef (fun _ _ _ n => (none, n + 1) : WaitCallback Nat) 0
          = some (none, fake2, w2) ∧
        (∃ X : Address, X.Bytes = rcpt.ReturnValue) ∧
        ∀ (order : IterOrder (Sigma fun _ : Address => PmtChanEntry)) (X : Address),
          X.Bytes = rcpt.ReturnValue →
            (GetChannelInfo fake2 order X).2.2 = none ∧
            (GetChannelInfo fake2 order X).1 = samplePayer ∧
            (GetChannelInfo fake2 order X).2.1.Amount = ⟨some 1000⟩ ∧
            (GetChannelInfo fake2 order X).2.1.Redeemed = ⟨some 0⟩) :=
  ⟨_, rfl, fun _ _ _ _ => rfl,
    GetChannelInfo_after_creation sampleEnv 1 41 ⟨some 5⟩ samplePayer samplePayee ⟨some 1000⟩ _
      (fun _ _ _ n => (none, n + 1)) 0 Cid.Undef rfl (fun _ _ _ _ => rfl)⟩

/-- C3: from every state with a nil `WaitErr`, after
`StubMessageResponse P to_ V` and a `Wait` whose continuation returns nil,
`Wait` returns nil and `GetChannel P q` returns, for every payee `q`, the
address whose bytes are the stubbed receipt's return value (there is one),
with a nil error. -/
theorem GetChannel_after_creation (env : StubEnv) (rmFake fake1 : RetrievalMarketClientFakeAPI)
    (P to_ : Address) (V : AttoFIL) {σ : Type} (cb : WaitCallback σ) (w : σ) (msgCid : Cid)
    (hstub : StubMessageResponse env rmFake P to_ V = some fake1)
    (hwait : rmFake.WaitErr = none)
    (hcb : ∀ b sm r s, (cb b sm r s).1 = none) :
    ∃ rcpt fake2 w2,
      fake1.ExpectedMsgReceipt = some rcpt ∧
      Wait fake1 msgCid cb w = some (none, fake2, w2) ∧
      (∃ X : Address, X.Bytes = rcpt.ReturnValue) ∧
      ∀ (q X : Address), X.Bytes = rcpt.ReturnValue → GetChannel fake2 P q = (X, none) := by
  obtain ⟨sig, sm, hfrom, -, -, hf⟩ := StubMessageResponse_eq_some hstub
  have hw : fake1.WaitErr = none := by rw [hf]; exact hwait
  have hsm : fake1.ExpectedSignedMsg = some sm := by rw [hf]
  have hr : fake1.ExpectedMsgReceipt =
      some { ExitCode := 0, ReturnValue := (NewIDAddress env.randUint64).Bytes, GasUsed := 0 } := by
    rw [hf]
  have hexp : fake1.ExpectedPmtChans = GoMap.set rmFake.ExpectedPmtChans P
      { ChannelID := NewIDAddress env.randUint64
        FundsAvail := ⟨V.Int⟩
        Redeemed := tokenamount.FromInt 0
        Payee := Address.Undef } := by rw [hf]
  have hW := Wait_eq_of_no_WaitErr fake1 msgCid cb w sm hw hsm
  rw [hcb] at hW
  refine ⟨_, _, _, hr, hW, ⟨NewIDAddress env.randUint64, rfl⟩, ?_⟩
  intro q X hX
  have hXeq : X = NewIDAddress env.randUint64 := Address.eq_of_Bytes_eq hX
  subst hXeq
  simp [GetChannel, hfrom, hexp, GoMap.get, GoMap.lookup_set_self]

/-- Witness of C3: payer `samplePayer` funds a channel with V = 1000 on a fake
that already holds a channel. -/
theorem GetChannel_after_creation_witness :
    ∃ fake1,
      StubMessageResponse sampleEnv sampleRegistered samplePayer samplePayee ⟨some 1000⟩
        = some fake1 ∧
      sampleRegistered.WaitErr = none ∧
      (∀ (b : Option Block) (sm : Option SignedMessage) (r : Option MessageReceipt) (s : Nat),
        ((fun _ _ _ n => (none, n + 1) : WaitCallback Nat) b sm r s).1 = none) ∧
      ∃ rcpt fake2 w2,
        fake1.ExpectedMsgReceipt = some rcpt ∧
        Wait fake1 Cid.Undef (fun _ _ _ n => (none, n + 1) : WaitCallback Nat) 0
          = some (none, fake2, w2) ∧
        (∃ X : Address, X.Bytes = rcpt.ReturnValue) ∧
        ∀ (q X : Address), X.Bytes = rcpt.ReturnValue →
          GetChannel fake2 samplePayer q = (X, none) :=
  ⟨_, rfl, rfl, fun _ _ _ _ => rfl,
    GetChannel_after_creation sampleEnv sampleRegistered _ samplePayer samplePayee ⟨some 1000⟩
      (fun _ _ _ n => (none, n + 1)) 0 Cid.Undef rfl rfl (fun _ _ _ _ => rfl)⟩

/-! ## What `Wait` registers -/

/-- C4, refuted as stated: in `sampleRejected` the payer has no registry entry,
`WaitErr` is nil and the receipt has exit code 1; `Wait` returns the
continuation's error, and afterwards the payer has a registry entry and
`GetChannel` returns the defined address `NewIDAddress 77`. -/
theorem Wait_nonzero_exit_registers_counterexample :
    sampleRejected.ActualPmtChans.lookup samplePayer = none ∧
    sampleRejected.WaitErr = none ∧
    sampleRejected.ExpectedMsgReceipt.map (fun r => r.ExitCode) = some 1 ∧
    sampleRejected.ExpectedSignedMsg.map (fun sm => sm.Message.From) = some samplePayer ∧
    (StubMessageResponse sampleEnv sampleFresh samplePayer samplePayee ⟨some 1000⟩).map
        (fun f => { f with
          ExpectedMsgReceipt := (f.ExpectedMsgReceipt.map fun r => { r with ExitCode := 1 }) })
      = some sampleRejected ∧
    (Wait sampleRejected Cid.Undef sampleCallback 0).map
        (fun r => (r.1, r.2.1.ActualPmtChans.lookup samplePayer,
          GetChannel r.2.1 samplePayer samplePayee)) =
      some (some "channel creation failed",
        some { Payee := Address.Undef
               Redeemed := ⟨some 0⟩
               ChannelID := NewIDAddress 77
               FundsAvail := ⟨some 1000⟩ },
        (NewIDAddress 77, none)) ∧
    NewIDAddress 77 ≠ Address.Undef :=
  ⟨by decide, by decide, by decide, by decide, rfl, by decide, by decide⟩

/-- C4, amended: in every state in which the payer has no registry entry,
`WaitErr` is nil and the receipt has a non-zero exit code, `Wait` with any
continuation returns, and afterwards the payer has the registry entry
`ExpectedPmtChans[payer]` (the zero entry if there is none) and `GetChannel`
returns that entry's `ChannelID` with a nil error. -/
theorem Wait_nonzero_exit_registers (rmFake : RetrievalMarketClientFakeAPI) (sm : SignedMessage)
    (rcpt : MessageReceipt) {σ : Type} (cb : WaitCallback σ) (w : σ) (msgCid : Cid)
    (hw : rmFake.WaitErr = none) (hsm : rmFake.ExpectedSignedMsg = some sm)
    (_hno : rmFake.ActualPmtChans.lookup sm.Message.From = none)
    (_hr : rmFake.ExpectedMsgReceipt = some rcpt) (_hexit : rcpt.ExitCode ≠ 0) :
    ∃ e fake2 w2,
      Wait rmFake msgCid cb w = some (e, fake2, w2) ∧
      fake2.ActualPmtChans.lookup sm.Message.From
        = some (rmFake.ExpectedPmtChans.get sm.Message.From) ∧
      ∀ q, GetChannel fake2 sm.Message.From q
        = ((rmFake.ExpectedPmtChans.get sm.Message.From).ChannelID, none) := by
  refine ⟨_, _, _, Wait_eq_of_no_WaitErr rmFake msgCid cb w sm hw hsm, ?_, fun q => ?_⟩
  · exact GoMap.lookup_set_self _ _ _
  · simp [GetChannel, GoMap.lookup_set_self]

/-- Witness of C4 (amended): `sampleRejected` with `sampleCallback`. -/
theorem Wait_nonzero_exit_registers_witness :
    ∃ e fake2 w2,
      Wait sampleRejected Cid.Undef sampleCallback 0 = some (e, fake2, w2) ∧
      fake2.ActualPmtChans.lookup samplePayer
        = some (sampleRejected.ExpectedPmtChans.get samplePayer) ∧
      ∀ q, GetChannel fake2 samplePayer q
        = ((sampleRejected.ExpectedPmtChans.get samplePayer).ChannelID, none) :=
  Wait_nonzero_exit_registers sampleRejected
    { Message :=
        { To := samplePayee
          From := samplePayer
          CallSeqNum := 0
          Value := ⟨some 1000⟩
          Method := 2
          Params := []
          GasPrice := ⟨none⟩
          GasLimit := 0 }
      Signature := [9, 0, 2] }
    { ExitCode := 1, ReturnValue := (NewIDAddress 77).Bytes, GasUsed := 0 }
    sampleCallback 0 Cid.Undef rfl rfl (by decide) rfl (by decide)

/-- C5, refuted as stated: on `sampleRejected` the continuation `sampleFailing`
makes `Wait` return a non-nil error, yet the registry read at `samplePayer` is
`none` before the call and an entry after it. -/
theorem Wait_error_changes_registry_counterexample :
    sampleRejected.WaitErr = none ∧
    sampleRejected.ActualPmtChans.lookup samplePayer = none ∧
    (Wait sampleRejected Cid.Undef sampleFailing 0).map
        (fun r => (r.1, r.2.1.ActualPmtChans.lookup samplePayer)) =
      some (some "continuation failed",
        some { Payee := Address.Undef
               Redeemed := ⟨some 0⟩
               ChannelID := NewIDAddress 77
               FundsAvail := ⟨some 1000⟩ }) ∧
    ∃ e fake2 w2,
      Wait sampleRejected Cid.Undef sampleFailing 0 = some (some e, fake2, w2) ∧
      fake2.ActualPmtChans ≠ sampleRejected.ActualPmtChans :=
  ⟨by decide, by decide, by decide, _, _, _, rfl,
    fun h => absurd (congrArg (fun m => GoMap.lookup m samplePayer) h) (by decide)⟩

/-- C5, amended: whenever `Wait` returns a non-nil error, either the error is
`WaitErr` and the fake and the caller's state are as before the call, or
`WaitErr` is nil, the error is the continuation's, and the registry is the one
before the call with the payer's entry set to `ExpectedPmtChans[payer]`: the
payer reads that entry, every other payer reads what it read before. -/
theorem Wait_error_registry (rmFake fake2 : RetrievalMarketClientFakeAPI) {σ : Type}
    (cb : WaitCallback σ) (w w2 : σ) (msgCid : Cid) (e : String)
    (h : Wait rmFake msgCid cb w = some (some e, fake2, w2)) :
    (rmFake.WaitErr = some e ∧ fake2 = rmFake ∧ w2 = w) ∨
    (rmFake.WaitErr = none ∧
      ∃ sm, rmFake.ExpectedSignedMsg = some sm ∧
        (cb rmFake.ExpectedBlock (some sm) rmFake.ExpectedMsgReceipt w).1 = some e ∧
        fake2.ActualPmtChans =
          rmFake.ActualPmtChans.set sm.Message.From
            (rmFake.ExpectedPmtChans.get sm.Message.From) ∧
        fake2.ActualPmtChans.lookup sm.Message.From
          = some (rmFake.ExpectedPmtChans.get sm.Message.From) ∧
        ∀ k, k ≠ sm.Message.From →
          fake2.ActualPmtChans.lookup k = rmFake.ActualPmtChans.lookup k) := by
  cases hw : rmFake.WaitErr with
  | some e' =>
    left
    simp only [Wait, hw, Option.some.injEq, Prod.mk.injEq] at h
    obtain ⟨he, hf, hw2⟩ := h
    exact ⟨by rw [he], hf.symm, hw2.symm⟩
  | none =>
    right
    refine ⟨rfl, ?_⟩
    cases hsm : rmFake.ExpectedSignedMsg with
    | none => simp [Wait, hw, hsm] at h
    | some sm =>
      rw [Wait_eq_of_no_WaitErr rmFake msgCid cb w sm hw hsm] at h
      simp only [Option.some.injEq, Prod.mk.injEq] at h
      obtain ⟨he, hf, -⟩ := h
      subst hf
      exact ⟨sm, rfl, he, rfl, GoMap.lookup_set_self _ _ _,
        fun k hk => GoMap.lookup_set_ne _ _ _ _ hk⟩

/-- Witness of C5 (amended): `sampleRejected` with the failing continuation. -/
theorem Wait_error_registry_witness :
    ∃ fake2,
      Wait sampleRejected Cid.Undef sampleFailing 0 = some (some "continuation failed", fake2, 1) ∧
      ((sampleRejected.WaitErr = some "continuation failed" ∧ fake2 = sampleRejected ∧ 1 = 0) ∨
      (sampleRejected.WaitErr = none ∧
        ∃ sm, sampleRejected.ExpectedSignedMsg = some sm ∧
          (sampleFailing sampleRejected.ExpectedBlock (some sm)
            sampleRejected.ExpectedMsgReceipt 0).1 = some "continuation failed" ∧
          fake2.ActualPmtChans =
            sampleRejected.ActualPmtChans.set sm.Message.From
              (sampleRejected.ExpectedPmtChans.get sm.Message.From) ∧
          fake2.ActualPmtChans.lookup sm.Message.From
            = some (sampleRejected.ExpectedPmtChans.get sm.Message.From) ∧
          ∀ k, k ≠ sm.Message.From →
            fake2.ActualPmtChans.lookup k = sampleRejected.ActualPmtChans.lookup k)) :=
  ⟨_, rfl, Wait_error_registry sampleRejected _ sampleFailing 0 1 Cid.Undef
    "continuation failed" rfl⟩

/-! ## The waiter's contract -/

/-- C6: in every state with a non-nil `WaitErr`, for every message CID and
every continuation, `Wait` returns exactly `WaitErr`, leaves the whole fake
unchanged and does not invoke the continuation: the caller's state is
untouched, and a recording continuation has recorded nothing. Nothing is
assumed about `ExpectedSignedMsg`. -/
theorem Wait_WaitErr (rmFake : RetrievalMarketClientFakeAPI) (e : String) (msgCid : Cid)
    {σ : Type} (cb : WaitCallback σ) (w : σ)
    (log : List (Option Block × Option SignedMessage × Option MessageReceipt))
    (h : rmFake.WaitErr = some e) :
    Wait rmFake msgCid cb w = some (rmFake.WaitErr, rmFake, w) ∧
    Wait rmFake msgCid (recording cb) (w, log) = some (rmFake.WaitErr, rmFake, (w, log)) := by
  simp [Wait, h]

/-- Witness of C6: `sampleWaitErr`, whose `ExpectedSignedMsg` is unset. -/
theorem Wait_WaitErr_witness :
    sampleWaitErr.WaitErr = some "wait failed" ∧ sampleWaitErr.ExpectedSignedMsg = none ∧
    (Wait sampleWaitErr Cid.Undef sampleFailing 0
        = some (sampleWaitErr.WaitErr, sampleWaitErr, 0) ∧
      Wait sampleWaitErr Cid.Undef (recording sampleFailing) (0, [])
        = some (sampleWaitErr.WaitErr, sampleWaitErr, (0, []))) :=
  ⟨rfl, rfl, Wait_WaitErr sampleWaitErr "wait failed" Cid.Undef sampleFailing 0 [] rfl⟩

/-- C7: in every state with a nil `WaitErr` and a set `ExpectedSignedMsg`, for
every continuation `cb`, `Wait` returns what the one application of `cb` to
`(ExpectedBlock, ExpectedSignedMsg, ExpectedMsgReceipt)` returns and leaves the
caller's state as that application leaves it; a recording continuation has
recorded exactly that one invocation. -/
theorem Wait_invokes_once (rmFake : RetrievalMarketClientFakeAPI) (sm : SignedMessage)
    (msgCid : Cid) {σ : Type} (cb : WaitCallback σ) (w : σ)
    (hw : rmFake.WaitErr = none) (hsm : rmFake.ExpectedSignedMsg = some sm) :
    ∃ fake2,
      Wait rmFake msgCid cb w =
        some ((cb rmFake.ExpectedBlock rmFake.ExpectedSignedMsg rmFake.ExpectedMsgReceipt w).1,
          fake2,
          (cb rmFake.ExpectedBlock rmFake.ExpectedSignedMsg rmFake.ExpectedMsgReceipt w).2) ∧
      Wait rmFake msgCid (recording cb) (w, []) =
        some ((cb rmFake.ExpectedBlock rmFake.ExpectedSignedMsg rmFake.ExpectedMsgReceipt w).1,
          fake2,
          ((cb rmFake.ExpectedBlock rmFake.ExpectedSignedMsg rmFake.ExpectedMsgReceipt w).2,
            [(rmFake.ExpectedBlock, rmFake.ExpectedSignedMsg, rmFake.ExpectedMsgReceipt)])) := by
  refine ⟨{ rmFake with
      ActualPmtChans :=
        rmFake.ActualPmtChans.set sm.Message.From
          (rmFake.ExpectedPmtChans.get sm.Message.From) }, ?_, ?_⟩
  · rw [Wait_eq_of_no_WaitErr rmFake msgCid cb w sm hw hsm, hsm]
  · rw [Wait_eq_of_no_WaitErr rmFake msgCid (recording cb) (w, []) sm hw hsm, hsm]
    simp [recording]

/-- Witness of C7: `sampleRejected` with `sampleCallback`, which is invoked once
with the stubbed block, message and receipt and whose error `Wait` returns. -/
theorem Wait_invokes_once_witness :
    ∃ fake2,
      Wait sampleRejected Cid.Undef sampleCallback 0 =
        some ((sampleCallback sampleRejected.ExpectedBlock sampleRejected.ExpectedSignedMsg
            sampleRejected.ExpectedMsgReceipt 0).1,
          fake2,
          (sampleCallback sampleRejected.ExpectedBlock sampleRejected.ExpectedSignedMsg
            sampleRejected.ExpectedMsgReceipt 0).2) ∧
      Wait sampleRejected Cid.Undef (recording sampleCallback) (0, []) =
        some ((sampleCallback sampleRejected.ExpectedBlock sampleRejected.ExpectedSignedMsg
            sampleRejected.ExpectedMsgReceipt 0).1,
          fake2,
          ((sampleCallback sampleRejected.ExpectedBlock sampleRejected.ExpectedSignedMsg
              sampleRejected.ExpectedMsgReceipt 0).2,
            [(sampleRejected.ExpectedBlock, sampleRejected.ExpectedSignedMsg,
              sampleRejected.ExpectedMsgReceipt)])) :=
  Wait_invokes_once sampleRejected _ Cid.Undef sampleCallback 0 rfl rfl

/-! ## Lane allocation -/

theorem AllocateLane_of_counter (rmFake : RetrievalMarketClientFakeAPI) (client chid : Address)
    (c : Nat) (h : rmFake.ExpectedLanes.lookup chid = some c) :
    AllocateLane rmFake client chid =
      ((c, none),
       { rmFake with ExpectedLanes := rmFake.ExpectedLanes.set chid ((c + 1) % uint64Size) }) := by
  simp [AllocateLane, h]

theorem AllocateLane_of_no_counter (rmFake : RetrievalMarketClientFakeAPI)
    (client chid : Address) (h : rmFake.ExpectedLanes.lookup chid = none) :
    AllocateLane rmFake client chid = ((0, none), rmFake) := by
  simp [AllocateLane, h]

theorem allocateLanes_of_no_counter (client chid : Address) (n : Nat)
    (rmFake : RetrievalMarketClientFakeAPI) (h : rmFake.ExpectedLanes.lookup chid = none) :
    allocateLanes client chid n rmFake = (List.replicate n (0, none), rmFake) := by
  induction n with
  | zero => rfl
  | succ n ih =>
    simp [allocateLanes, AllocateLane_of_no_counter rmFake client chid h, ih, List.replicate_succ]

theorem allocateLanes_of_counter (client chid : Address) (n : Nat) :
    ∀ (rmFake : RetrievalMarketClientFakeAPI) (c : Nat), c < uint64Size →
      rmFake.ExpectedLanes.lookup chid = some c →
      (allocateLanes client chid n rmFake).1 =
        (List.range n).map (fun k => ((c + k) % uint64Size, (none : GoError))) := by
  induction n with
  | zero => intro rmFake c _ _; rfl
  | succ n ih =>
    intro rmFake c hc h
    have hnext : (c + 1) % uint64Size < uint64Size := Nat.mod_lt _ (by decide)
    have hrest := ih
      { rmFake with ExpectedLanes := rmFake.ExpectedLanes.set chid ((c + 1) % uint64Size) }
      ((c + 1) % uint64Size) hnext (GoMap.lookup_set_self _ _ _)
    simp only [allocateLanes, AllocateLane_of_counter rmFake client chid c h, hrest,
      List.range_succ_eq_map, List.map_cons, List.map_map]
    refine congrArg₂ List.cons ?_ (List.map_congr_left fun k _ => ?_)
    · simp [Nat.mod_eq_of_lt hc]
    · simp only [Function.comp, Prod.mk.injEq, and_true]
      simp only [uint64Size] at hc ⊢
      omega

/-- C8, refuted as stated: on the fresh fake `sampleFresh` two successive
`AllocateLane` calls for `sampleChannel` both return index 0, so the indices are
not distinct and are not 0, 1. -/
theorem AllocateLane_fresh_counterexample :
    (allocateLanes samplePayer sampleChannel 2 sampleFresh).1 = [(0, none), (0, none)] ∧
    ¬ ((allocateLanes samplePayer sampleChannel 2 sampleFresh).1.map Prod.fst).Nodup ∧
    (allocateLanes samplePayer sampleChannel 2 sampleFresh).1.map Prod.fst ≠ List.range 2 := by
  decide

/-- C8, amended: for every channel, client and N ≥ 1, on a fake as
`NewRetrievalMarketClientFakeAPI` builds it each of N successive `AllocateLane`
calls returns index 0 with a nil error; after the counter of the channel has
been set to 0 in `ExpectedLanes`, N ≤ 2^64 successive calls return nil errors
and exactly the indices 0, 1, ..., N-1, pairwise distinct and strictly
increasing. -/
theorem AllocateLane_sequence (rAddr rNonce : Nat) (bal : TokenAmount) (client chid : Address)
    (N : Nat) (_hN : 1 ≤ N) (hsize : N ≤ uint64Size) :
    (allocateLanes client chid N (NewRetrievalMarketClientFakeAPI rAddr rNonce bal)).1
      = List.replicate N (0, none) ∧
    ((allocateLanes client chid N
      { NewRetrievalMarketClientFakeAPI rAddr rNonce bal with
        ExpectedLanes :=
          (NewRetrievalMarketClientFakeAPI rAddr rNonce bal).ExpectedLanes.set chid 0 }).1.map
        Prod.fst = List.range N) ∧
    (∀ r ∈ (allocateLanes client chid N
      { NewRetrievalMarketClientFakeAPI rAddr rNonce bal with
        ExpectedLanes :=
          (NewRetrievalMarketClientFakeAPI rAddr rNonce bal).ExpectedLanes.set chid 0 }).1,
        r.2 = none) ∧
    ((allocateLanes client chid N
      { NewRetrievalMarketClientFakeAPI rAddr rNonce bal with
        ExpectedLanes :=
          (NewRetrievalMarketClientFakeAPI rAddr rNonce bal).ExpectedLanes.set chid 0 }).1.map
        Prod.fst).Nodup ∧
    ((allocateLanes client chid N
      { NewRetrievalMarketClientFakeAPI rAddr rNonce bal with
        ExpectedLanes :=
          (NewRetrievalMarketClientFakeAPI rAddr rNonce bal).ExpectedLanes.set chid 0 }).1.map
        Prod.fst).Pairwise (· < ·) := by
  have hres : (allocateLanes client chid N
      { NewRetrievalMarketClientFakeAPI rAddr rNonce bal with
        ExpectedLanes :=
          (NewRetrievalMarketClientFakeAPI rAddr rNonce bal).ExpectedLanes.set chid 0 }).1
      = (List.range N).map (fun k => (k, (none : GoError))) := by
    rw [allocateLanes_of_counter client chid N _ 0 (by decide) (GoMap.lookup_set_self _ _ _)]
    refine List.map_congr_left fun k hk => ?_
    have hk' : k < uint64Size := lt_of_lt_of_le (List.mem_range.mp hk) hsize
    simp [Nat.mod_eq_of_lt hk']
  have hfst : ((List.range N).map (fun k => (k, (none : GoError)))).map Prod.fst
      = List.range N := by
    simp [List.map_map, Function.comp_def]
  rw [hres, hfst]
  refine ⟨?_, rfl, ?_, List.nodup_range N, List.pairwise_lt_range N⟩
  · rw [allocateLanes_of_no_counter client chid N _ (GoMap.lookup_make chid)]
  · intro r hr
    obtain ⟨k, -, rfl⟩ := List.mem_map.mp hr
    rfl

/-- Witness of C8 (amended): three calls for `sampleChannel`. -/
theorem AllocateLane_sequence_witness :
    1 ≤ 3 ∧ 3 ≤ uint64Size ∧
    (allocateLanes samplePayer sampleChannel 3 (NewRetrievalMarketClientFakeAPI 1 41 ⟨some 5⟩)).1
      = [(0, none), (0, none), (0, none)] ∧
    (allocateLanes samplePayer sampleChannel 3
      { NewRetrievalMarketClientFakeAPI 1 41 ⟨some 5⟩ with
        ExpectedLanes :=
          (NewRetrievalMarketClientFakeAPI 1 41 ⟨some 5⟩).ExpectedLanes.set sampleChannel 0 }).1.map
        Prod.fst = [0, 1, 2] :=
  ⟨by decide, by decide,
    (AllocateLane_sequence 1 41 ⟨some 5⟩ samplePayer sampleChannel 3 (by decide) (by decide)).1,
    (AllocateLane_sequence 1 41 ⟨some 5⟩ samplePayer sampleChannel 3 (by decide) (by decide)).2.1⟩

/-- C9, refuted as stated: `sampleChannel` has no counter in `sampleFresh`;
`AllocateLane` returns a nil error, and it is not the case that it returned 0,
left a counter and the next call returns 1: no counter exists afterwards and the
next call returns 0. -/
theorem AllocateLane_unknown_counterexample :
    sampleFresh.ExpectedLanes.lookup sampleChannel = none ∧
    ¬ ((AllocateLane sampleFresh samplePayer sampleChannel).1.2 ≠ none ∨
        ((AllocateLane sampleFresh samplePayer sampleChannel).1.1 = 0 ∧
          (AllocateLane sampleFresh samplePayer sampleChannel).2.ExpectedLanes.lookup sampleChannel
            ≠ none ∧
          (AllocateLane (AllocateLane sampleFresh samplePayer sampleChannel).2
            samplePayer sampleChannel).1.1 = 1)) ∧
    (AllocateLane sampleFresh samplePayer sampleChannel).2.ExpectedLanes.lookup sampleChannel
      = none ∧
    (AllocateLane (AllocateLane sampleFresh samplePayer sampleChannel).2
      samplePayer sampleChannel).1 = (0, none) := by
  decide

/-- C9, amended: for every state and every channel without a counter in
`ExpectedLanes`, `AllocateLane` returns index 0 with a nil error and leaves the
fake unchanged: the channel still has no counter, and the next `AllocateLane`
for it returns index 0 with a nil error again. -/
theorem AllocateLane_unknown (rmFake : RetrievalMarketClientFakeAPI) (client chid : Address)
    (h : rmFake.ExpectedLanes.lookup chid = none) :
    AllocateLane rmFake client chid = ((0, none), rmFake) ∧
    (AllocateLane rmFake client chid).2.ExpectedLanes.lookup chid = none ∧
    (AllocateLane (AllocateLane rmFake client chid).2 client chid).1 = (0, none) := by
  rw [AllocateLane_of_no_counter rmFake client chid h]
  exact ⟨rfl, h, by rw [AllocateLane_of_no_counter rmFake client chid h]⟩

/-- Witness of C9 (amended): `sampleRegistered` has no counter for
`sampleChannel`. -/
theorem AllocateLane_unknown_witness :
    sampleRegistered.ExpectedLanes.lookup sampleChannel = none ∧
    (AllocateLane sampleRegistered samplePayer sampleChannel = ((0, none), sampleRegistered) ∧
    (AllocateLane sampleRegistered samplePayer sampleChannel).2.ExpectedLanes.lookup sampleChannel
      = none ∧
    (AllocateLane (AllocateLane sampleRegistered samplePayer sampleChannel).2
      samplePayer sampleChannel).1 = (0, none)) :=
  ⟨by decide, AllocateLane_unknown sampleRegistered samplePayer sampleChannel (by decide)⟩

/-! ## Nonces -/

theorem nextNonces_values (addr : Address) (n : Nat) :
    ∀ rmFake : RetrievalMarketClientFakeAPI,
      (nextNonces addr n rmFake).1 =
        (List.range n).map (fun k => ((rmFake.Nonce + k + 1) % uint64Size, rmFake.NonceErr)) := by
  induction n with
  | zero => intro rmFake; rfl
  | succ n ih =>
    intro rmFake
    simp only [nextNonces, NextNonce, ih, List.range_succ_eq_map, List.map_cons, List.map_map]
    refine congrArg₂ List.cons rfl (List.map_congr_left fun k _ => ?_)
    simp only [Function.comp, Prod.mk.injEq, and_true, uint64Size]
    omega

/-- C10, refuted as stated: when the constructor draws `2 ^ 64 - 2` for
`Nonce`, two successive `NextNonce` calls return `2 ^ 64 - 1` and then 0, and 0
is not greater than `2 ^ 64 - 1`. -/
theorem NextNonce_wraps_counterexample :
    sampleHighNonce.Nonce = 18446744073709551614 ∧
    sampleHighNonce.Nonce < uint64Size ∧
    (nextNonces samplePayer 2 sampleHighNonce).1.map Prod.fst = [18446744073709551615, 0] ∧
    ¬ ((nextNonces samplePayer 2 sampleHighNonce).1.map Prod.fst).Chain' (· < ·) := by
  have hvals : (nextNonces samplePayer 2 sampleHighNonce).1.map Prod.fst
      = [18446744073709551615, 0] := by decide
  refine ⟨by decide, by decide, hvals, ?_⟩
  rw [hvals]
  simp

/-- C10, amended: for every state, every account and every N ≥ 2, the k-th of N
successive `NextNonce` calls (k = 0, ..., N-1) returns `(Nonce + k + 1) mod 2^64`;
the N values are pairwise distinct when N ≤ 2^64, and each is strictly greater
than all earlier ones when `Nonce + N < 2^64`, that is when the counter does not
wrap. -/
theorem NextNonce_sequence (rmFake : RetrievalMarketClientFakeAPI) (addr : Address) (N : Nat)
    (_hN : 2 ≤ N) :
    (nextNonces addr N rmFake).1.map Prod.fst =
      (List.range N).map (fun k => (rmFake.Nonce + k + 1) % uint64Size) ∧
    (N ≤ uint64Size → ((nextNonces addr N rmFake).1.map Prod.fst).Nodup) ∧
    (rmFake.Nonce + N < uint64Size →
      ((nextNonces addr N rmFake).1.map Prod.fst).Pairwise (· < ·)) := by
  have hval : (nextNonces addr N rmFake).1.map Prod.fst =
      (List.range N).map (fun k => (rmFake.Nonce + k + 1) % uint64Size) := by
    rw [nextNonces_values, List.map_map]
    rfl
  rw [hval]
  refine ⟨rfl, fun hsize => ?_, fun hsmall => ?_⟩
  · refine (List.nodup_range N).map_on fun x hx y hy hxy => ?_
    have hx' := List.mem_range.mp hx
    have hy' := List.mem_range.mp hy
    simp only [uint64Size] at hsize hxy
    omega
  · refine (List.pairwise_map).mpr ((List.pairwise_lt_range N).imp_of_mem ?_)
    intro x y hx hy hxy
    have hx' := List.mem_range.mp hx
    have hy' := List.mem_range.mp hy
    simp only [uint64Size] at hsmall ⊢
    omega

/-- Witness of C10 (amended): three calls on `sampleFresh`, whose `Nonce` is
41. -/
theorem NextNonce_sequence_witness :
    2 ≤ 3 ∧ 3 ≤ uint64Size ∧ sampleFresh.Nonce + 3 < uint64Size ∧
    (nextNonces samplePayer 3 sampleFresh).1.map Prod.fst =
      (List.range 3).map (fun k => (sampleFresh.Nonce + k + 1) % uint64Size) ∧
    ((nextNonces samplePayer 3 sampleFresh).1.map Prod.fst).Nodup ∧
    ((nextNonces samplePayer 3 sampleFresh).1.map Prod.fst).Pairwise (· < ·) :=
  ⟨by decide, by decide, by decide,
    (NextNonce_sequence sampleFresh samplePayer 3 (by decide)).1,
    (NextNonce_sequence sampleFresh samplePayer 3 (by decide)).2.1 (by decide),
    (NextNonce_sequence sampleFresh samplePayer 3 (by decide)).2.2 (by decide)⟩

/-! ## Channel state lookup -/

/-- The loop of `GetChannelInfo` either finds no entry with the channel id and
fails, or returns the payer and the state of an entry that has it. -/
theorem GetChannelInfo.loop_spec (c : Address)
    (l : List (Sigma fun _ : Address => PmtChanEntry)) :
    (GetChannelInfo.loop c l = (Address.Undef, default, some "no such ChannelID") ∧
        ∀ x ∈ l, x.2.ChannelID ≠ c) ∨
    ∃ x ∈ l, x.2.ChannelID = c ∧
      GetChannelInfo.loop c l =
        (x.1,
         { Payee := x.2.Payee
           Amount := types.NewAttoFIL x.2.FundsAvail.Int
           Redeemed := types.NewAttoFIL x.2.Redeemed.Int },
         none) := by
  induction l with
  | nil => exact Or.inl ⟨rfl, fun x hx => absurd hx (List.not_mem_nil x)⟩
  | cons y ys ih =>
    obtain ⟨payer, entry⟩ := y
    by_cases hy : entry.ChannelID = c
    · exact Or.inr ⟨⟨payer, entry⟩, List.mem_cons_self _ _, hy, by simp [GetChannelInfo.loop, hy]⟩
    · rcases ih with ⟨hfail, hall⟩ | ⟨x, hx, hxc, hfound⟩
      · refine Or.inl ⟨by simp [GetChannelInfo.loop, hy, hfail], fun x hx => ?_⟩
        rcases List.mem_cons.mp hx with rfl | hx'
        · exact hy
        · exact hall x hx'
      · exact Or.inr ⟨x, List.mem_cons_of_mem _ hx, hxc, by simp [GetChannelInfo.loop, hy, hfound]⟩

/-- The entries a `range` visits are the entries the map reads. -/
theorem GoMap.mem_visit_iff {V : Type} (m : GoMap V) (order : IterOrder (Sigma fun _ : Address => V))
    (p : Address) (v : V) :
    (⟨p, v⟩ : Sigma fun _ : Address => V) ∈ order.visit m.entries ↔ GoMap.lookup m p = some v := by
  rw [(order.perm m.entries).mem_iff]
  exact (AList.mem_lookup_iff (s := m)).symm

/-- C11: for every state, every iteration order and every address `c`,
`GetChannelInfo c` returns a non-nil error exactly when no entry of
`ActualPmtChans` has `ChannelID = c`, and then it returns the undefined address
and the empty `ChannelInfo`; when some entry has `ChannelID = c` it returns a nil
error, the payer of such an entry and the `ChannelInfo` built from that entry
(`Payee`, `Amount = FundsAvail`, `Redeemed`). -/
theorem GetChannelInfo_error_iff (rmFake : RetrievalMarketClientFakeAPI)
    (order : IterOrder (Sigma fun _ : Address => PmtChanEntry)) (c : Address) :
    ((GetChannelInfo rmFake order c).2.2 ≠ none ↔
      ∀ p e, rmFake.ActualPmtChans.lookup p = some e → e.ChannelID ≠ c) ∧
    ((GetChannelInfo rmFake order c).2.2 ≠ none →
      GetChannelInfo rmFake order c = (Address.Undef, default, some "no such ChannelID")) ∧
    ((∃ p e, rmFake.ActualPmtChans.lookup p = some e ∧ e.ChannelID = c) →
      ∃ p e, rmFake.ActualPmtChans.lookup p = some e ∧ e.ChannelID = c ∧
        GetChannelInfo rmFake order c =
          (p,
           { Payee := e.Payee
             Amount := types.NewAttoFIL e.FundsAvail.Int
             Redeemed := types.NewAttoFIL e.Redeemed.Int },
           none)) := by
  unfold GetChannelInfo
  rcases GetChannelInfo.loop_spec c (order.visit rmFake.ActualPmtChans.entries) with
    ⟨hfail, hall⟩ | ⟨⟨p, e⟩, hx, hxc, hfound⟩
  · have hnone : ∀ p e, rmFake.ActualPmtChans.lookup p = some e → e.ChannelID ≠ c :=
      fun p e hpe => hall ⟨p, e⟩ ((GoMap.mem_visit_iff _ order p e).mpr hpe)
    refine ⟨⟨fun _ => hnone, fun _ => by simp [hfail]⟩, fun _ => hfail, ?_⟩
    rintro ⟨p, e, hpe, hc⟩
    exact absurd hc (hnone p e hpe)
  · have hpe : rmFake.ActualPmtChans.lookup p = some e := (GoMap.mem_visit_iff _ order p e).mp hx
    refine ⟨⟨fun herr => absurd (by simp [hfound]) herr, fun hall => absurd hxc (hall p e hpe)⟩,
      fun herr => absurd (by simp [hfound]) herr, fun _ => ⟨p, e, hpe, hxc, hfound⟩⟩

/-- Witness of C11: in `sampleRegistered` the channel `sampleChannel` is found,
visiting the entries back to front. -/
theorem GetChannelInfo_error_iff_witness :
    (∃ p e, sampleRegistered.ActualPmtChans.lookup p = some e ∧ e.ChannelID = sampleChannel) ∧
    ∃ p e, sampleRegistered.ActualPmtChans.lookup p = some e ∧ e.ChannelID = sampleChannel ∧
      GetChannelInfo sampleRegistered IterOrder.backwards sampleChannel =
        (p,
         { Payee := e.Payee
           Amount := types.NewAttoFIL e.FundsAvail.Int
           Redeemed := types.NewAttoFIL e.Redeemed.Int },
         none) :=
  ⟨⟨samplePayer, _, GoMap.lookup_set_self _ _ _, rfl⟩,
    (GetChannelInfo_error_iff sampleRegistered IterOrder.backwards sampleChannel).2.2
      ⟨samplePayer, _, GoMap.lookup_set_self _ _ _, rfl⟩⟩

/-! ## Reachable states -/

/-- A `Wait` that returns either left the fake as it was, or wrote the payer's
expected entry into the registry. -/
theorem Wait_eq_some {σ : Type} {rmFake fake1 : RetrievalMarketClientFakeAPI} {msgCid : Cid}
    {cb : WaitCallback σ} {w w1 : σ} {e : GoError}
    (h : Wait rmFake msgCid cb w = some (e, fake1, w1)) :
    fake1 = rmFake ∨
    (rmFake.WaitErr = none ∧
      ∃ sm, rmFake.ExpectedSignedMsg = some sm ∧
        fake1 =
          { rmFake with
            ActualPmtChans :=
              rmFake.ActualPmtChans.set sm.Message.From
                (rmFake.ExpectedPmtChans.get sm.Message.From) }) := by
  have hcases : (∃ e', rmFake.WaitErr = some e') ∨ rmFake.WaitErr = none := by
    cases rmFake.WaitErr with
    | none => exact Or.inr rfl
    | some e' => exact Or.inl ⟨e', rfl⟩
  rcases hcases with ⟨e', hw⟩ | hw
  · left
    simp only [Wait, hw, Option.some.injEq, Prod.mk.injEq] at h
    exact h.2.1.symm
  · right
    refine ⟨hw, ?_⟩
    have hcases2 : (∃ sm, rmFake.ExpectedSignedMsg = some sm) ∨ rmFake.ExpectedSignedMsg = none := by
      cases rmFake.ExpectedSignedMsg with
      | none => exact Or.inr rfl
      | some sm => exact Or.inl ⟨sm, rfl⟩
    rcases hcases2 with ⟨sm, hsm⟩ | hsm
    · rw [Wait_eq_of_no_WaitErr rmFake msgCid cb w sm hw hsm] at h
      simp only [Option.some.injEq, Prod.mk.injEq] at h
      exact ⟨sm, hsm, h.2.1.symm⟩
    · simp [Wait, hw, hsm] at h

theorem NewIDAddress_ne_Undef (r : Nat) : NewIDAddress r ≠ Address.Undef := by
  simp [NewIDAddress, Address.Undef]

/-! ## Who writes the registry -/

/-- C13: in every state and for all arguments, `NextNonce`, `Send`,
`AllocateLane` and `StubMessageResponse` leave `ActualPmtChans` exactly as it
was (`GetChannel`, `GetChannelInfo`, `GetBalance` and `SignBytes` write no field
at all, so they return no new fake); a `Wait` that returns either leaves the
registry as it was, or it has a nil `WaitErr` and a signed message, and then the
registry is the old one with the entry of the message's `From` address
assigned: every other address reads what it read before. -/
theorem registry_written_only_by_Wait (rmFake : RetrievalMarketClientFakeAPI)
    (addr client chid from_ to_ : Address) (args : SendArgs) (env : StubEnv) (value : AttoFIL)
    {σ : Type} (cb : WaitCallback σ) (w : σ) (msgCid : Cid) :
    (NextNonce rmFake addr).2.ActualPmtChans = rmFake.ActualPmtChans ∧
    (Send rmFake args).2.ActualPmtChans = rmFake.ActualPmtChans ∧
    (AllocateLane rmFake client chid).2.ActualPmtChans = rmFake.ActualPmtChans ∧
    (∀ fake1, StubMessageResponse env rmFake from_ to_ value = some fake1 →
      fake1.ActualPmtChans = rmFake.ActualPmtChans) ∧
    ∀ e fake1 w1, Wait rmFake msgCid cb w = some (e, fake1, w1) →
      fake1.ActualPmtChans = rmFake.ActualPmtChans ∨
      (rmFake.WaitErr = none ∧
        ∃ sm, rmFake.ExpectedSignedMsg = some sm ∧
          fake1.ActualPmtChans =
            rmFake.ActualPmtChans.set sm.Message.From
              (rmFake.ExpectedPmtChans.get sm.Message.From) ∧
          ∀ k, k ≠ sm.Message.From →
            fake1.ActualPmtChans.lookup k = rmFake.ActualPmtChans.lookup k) := by
  refine ⟨rfl, rfl, ?_, ?_, ?_⟩
  · unfold AllocateLane
    split <;> rfl
  · intro fake1 hstub
    obtain ⟨sig, sm, -, -, -, hf⟩ := StubMessageResponse_eq_some hstub
    rw [hf]
  · intro e fake1 w1 hwait
    rcases Wait_eq_some hwait with hf | ⟨hw, sm, hsm, hf⟩
    · exact Or.inl (by rw [hf])
    · refine Or.inr ⟨hw, sm, hsm, by rw [hf], fun k hk => ?_⟩
      rw [hf]
      exact GoMap.lookup_set_ne _ _ _ _ hk

/-- Witness of C13: on `sampleStubbed 1000` the stub and the counter methods
keep the empty registry, and `Wait` assigns the entry of `samplePayer` only. -/
theorem registry_written_only_by_Wait_witness :
    (∃ fake1, StubMessageResponse sampleEnv (sampleStubbed ⟨some 1000⟩) samplePayee samplePayer
        ⟨some 7⟩ = some fake1 ∧
      fake1.ActualPmtChans = (sampleStubbed ⟨some 1000⟩).ActualPmtChans) ∧
    ((sampleCreated ⟨some 1000⟩).ActualPmtChans = (sampleStubbed ⟨some 1000⟩).ActualPmtChans ∨
      ((sampleStubbed ⟨some 1000⟩).WaitErr = none ∧
        ∃ sm, (sampleStubbed ⟨some 1000⟩).ExpectedSignedMsg = some sm ∧
          (sampleCreated ⟨some 1000⟩).ActualPmtChans =
            (sampleStubbed ⟨some 1000⟩).ActualPmtChans.set sm.Message.From
              ((sampleStubbed ⟨some 1000⟩).ExpectedPmtChans.get sm.Message.From) ∧
          ∀ k, k ≠ sm.Message.From →
            (sampleCreated ⟨some 1000⟩).ActualPmtChans.lookup k
              = (sampleStubbed ⟨some 1000⟩).ActualPmtChans.lookup k)) :=
  ⟨⟨_, rfl,
      (registry_written_only_by_Wait (sampleStubbed ⟨some 1000⟩) samplePayer samplePayer
        sampleChannel samplePayee samplePayer sampleSendArgs sampleEnv ⟨some 7⟩ sampleCallback 0
        Cid.Undef).2.2.2.1 _ rfl⟩,
    (registry_written_only_by_Wait (sampleStubbed ⟨some 1000⟩) samplePayer samplePayer
      sampleChannel samplePayee samplePayer sampleSendArgs sampleEnv ⟨some 7⟩ sampleCallback 0
      Cid.Undef).2.2.2.2 none (sampleCreated ⟨some 1000⟩) 1 rfl⟩

/-! ## Lane allocation on a known channel -/

/-- C14: in every state and for every channel with a counter `c` in
`ExpectedLanes`, `AllocateLane` returns `(c, nil)` and the fake in which only the
counter of that channel has changed, to `(c + 1) mod 2^64`: the counters of all
other channels read as before. The result is the same for every client address,
and the error is nil whatever `AllocateLaneErr` is set to. -/
theorem AllocateLane_known (rmFake : RetrievalMarketClientFakeAPI) (client chid : Address)
    (c : Nat) (h : rmFake.ExpectedLanes.lookup chid = some c) :
    AllocateLane rmFake client chid =
      ((c, none),
       { rmFake with ExpectedLanes := rmFake.ExpectedLanes.set chid ((c + 1) % uint64Size) }) ∧
    (AllocateLane rmFake client chid).2.ExpectedLanes.lookup chid
      = some ((c + 1) % uint64Size) ∧
    (∀ k, k ≠ chid →
      (AllocateLane rmFake client chid).2.ExpectedLanes.lookup k
        = rmFake.ExpectedLanes.lookup k) ∧
    (∀ other, AllocateLane rmFake other chid = AllocateLane rmFake client chid) ∧
    ∀ err, (AllocateLane { rmFake with AllocateLaneErr := err } client chid).1 = (c, none) := by
  have hcall := AllocateLane_of_counter rmFake client chid c h
  refine ⟨hcall, ?_, fun k hk => ?_, fun other => ?_, fun err => ?_⟩
  · rw [hcall]
    exact GoMap.lookup_set_self _ _ _
  · rw [hcall]
    exact GoMap.lookup_set_ne _ _ _ _ hk
  · rw [hcall, AllocateLane_of_counter rmFake other chid c h]
  · rw [AllocateLane_of_counter { rmFake with AllocateLaneErr := err } client chid c h]

/-- Witness of C14: `sampleLaneErr`, where `AllocateLaneErr` is set and the
counter of `sampleChannel` is 7. -/
theorem AllocateLane_known_witness :
    sampleLaneErr.AllocateLaneErr = some "allocate lane failed" ∧
    sampleLaneErr.ExpectedLanes.lookup sampleChannel = some 7 ∧
    (AllocateLane sampleLaneErr samplePayer sampleChannel).1 = (7, none) ∧
    (AllocateLane sampleLaneErr samplePayer sampleChannel).2.ExpectedLanes.lookup sampleChannel
      = some 8 ∧
    (AllocateLane sampleLaneErr samplePayer sampleChannel).2.ExpectedLanes.lookup samplePayee
      = some 3 :=
  ⟨rfl, by decide,
    congrArg Prod.fst (AllocateLane_known sampleLaneErr samplePayer sampleChannel 7 (by decide)).1,
    (AllocateLane_known sampleLaneErr samplePayer sampleChannel 7 (by decide)).2.1,
    ((AllocateLane_known sampleLaneErr samplePayer sampleChannel 7 (by decide)).2.2.1
      samplePayee (by decide)).trans (by decide)⟩

/-! ## The payee of a created channel -/

/-- C15, the code at the failing input: after
`StubMessageResponse samplePayer samplePayee 1000` and a successful `Wait` on a
fresh fake, `GetChannelInfo` of the created channel returns a nil error and the
undefined address as `Payee`, which is not the payee `samplePayee` of the
message. -/
theorem GetChannelInfo_Payee_not_recorded :
    StubMessageResponse sampleEnv sampleFresh samplePayer samplePayee ⟨some 1000⟩
      = some (sampleStubbed ⟨some 1000⟩) ∧
    (sampleStubbed ⟨some 1000⟩).ExpectedSignedMsg.map (fun sm => sm.Message.To)
      = some samplePayee ∧
    Wait (sampleStubbed ⟨some 1000⟩) Cid.Undef sampleCallback 0
      = some (none, sampleCreated ⟨some 1000⟩, 1) ∧
    GetChannelInfo (sampleCreated ⟨some 1000⟩) IterOrder.stored sampleChannel =
      (samplePayer, { Payee := Address.Undef, Amount := ⟨some 1000⟩, Redeemed := ⟨some 0⟩ }, none) ∧
    (GetChannelInfo (sampleCreated ⟨some 1000⟩) IterOrder.stored sampleChannel).2.1.Payee
      ≠ samplePayee :=
  ⟨rfl, by decide, rfl, by decide, by decide⟩

/-! ## The lookup round trip -/

/-- C17: in every state in which the entries of distinct payers have distinct
`ChannelID`s, for every payer `p` with an entry `e` and every payee `q`,
`GetChannelInfo (GetChannel p q)` returns, in every iteration order, a nil
error, the payer `p`, and `Payee = e.Payee`, `Amount = e.FundsAvail`,
`Redeemed = e.Redeemed`. Without the distinctness the payer depends on the
iteration order: in `sampleShared` two orders return two payers. -/
theorem GetChannelInfo_GetChannel_round_trip :
    (∀ (rmFake : RetrievalMarketClientFakeAPI) (p q : Address) (e : PmtChanEntry)
        (order : IterOrder (Sigma fun _ : Address => PmtChanEntry)),
      (∀ p1 p2 e1 e2, rmFake.ActualPmtChans.lookup p1 = some e1 →
        rmFake.ActualPmtChans.lookup p2 = some e2 → e1.ChannelID = e2.ChannelID → p1 = p2) →
      rmFake.ActualPmtChans.lookup p = some e →
      GetChannelInfo rmFake order (GetChannel rmFake p q).1 =
        (p,
         { Payee := e.Payee
           Amount := types.NewAttoFIL e.FundsAvail.Int
           Redeemed := types.NewAttoFIL e.Redeemed.Int },
         none)) ∧
    (sampleShared.ActualPmtChans.lookup samplePayer = some (sampleEntry ⟨some 1000⟩) ∧
      (GetChannelInfo sampleShared IterOrder.stored
        (GetChannel sampleShared samplePayer samplePayee).1).1 = samplePayee ∧
      (GetChannelInfo sampleShared IterOrder.backwards
        (GetChannel sampleShared samplePayer samplePayee).1).1 = samplePayer ∧
      samplePayee ≠ samplePayer) := by
  refine ⟨?_, by decide, by decide, by decide, by decide⟩
  intro rmFake p q e order hdist hpe
  have hch : (GetChannel rmFake p q).1 = e.ChannelID := by simp [GetChannel, hpe]
  rw [hch]
  unfold GetChannelInfo
  rcases GetChannelInfo.loop_spec e.ChannelID (order.visit rmFake.ActualPmtChans.entries) with
    ⟨-, hall⟩ | ⟨⟨p', e'⟩, hx, hxc, hfound⟩
  · exact absurd rfl (hall ⟨p, e⟩ ((GoMap.mem_visit_iff _ order p e).mpr hpe))
  · have hpe' : rmFake.ActualPmtChans.lookup p' = some e' :=
      (GoMap.mem_visit_iff _ order p' e').mp hx
    have hp : p' = p := hdist p' p e' e hpe' hpe hxc
    subst hp
    have he : e' = e := Option.some.inj (hpe'.symm.trans hpe)
    subst he
    exact hfound

/-- Witness of C17: in `sampleRegistered`, which holds one channel, the round
trip of `samplePayer` visiting the entries back to front. -/
theorem GetChannelInfo_GetChannel_round_trip_witness :
    sampleRegistered.ActualPmtChans.lookup samplePayer = some (sampleEntry ⟨some 1000⟩) ∧
    GetChannelInfo sampleRegistered IterOrder.backwards
        (GetChannel sampleRegistered samplePayer samplePayee).1 =
      (samplePayer,
       { Payee := (sampleEntry ⟨some 1000⟩).Payee
         Amount := types.NewAttoFIL (sampleEntry ⟨some 1000⟩).FundsAvail.Int
         Redeemed := types.NewAttoFIL (sampleEntry ⟨some 1000⟩).Redeemed.Int },
       none) :=
  ⟨by decide,
    GetChannelInfo_GetChannel_round_trip.1 sampleRegistered samplePayer samplePayee
      (sampleEntry ⟨some 1000⟩) IterOrder.backwards
      (fun p1 p2 e1 e2 h1 h2 _ => by
        have key : ∀ (k : Address) (v : PmtChanEntry),
            sampleRegistered.ActualPmtChans.lookup k = some v → k = samplePayer := by
          intro k v hk
          by_contra hne
          have hnone : sampleRegistered.ActualPmtChans.lookup k = none :=
            (GoMap.lookup_set_ne _ _ _ _ hne).trans (GoMap.lookup_make k)
          rw [hnone] at hk
          exact absurd hk (by simp)
        rw [key p1 e1 h1, key p2 e2 h2])
      (by decide)⟩

/-! ## The counter shared by `NextNonce` and `Send` -/

theorem runNonceCall_Nonce (rmFake : RetrievalMarketClientFakeAPI) (c : NonceCall) :
    (runNonceCall rmFake c).2.Nonce = (rmFake.Nonce + 1) % uint64Size := by
  cases c <;> rfl

theorem runNonceCalls_Nonce (calls : List NonceCall) :
    ∀ rmFake : RetrievalMarketClientFakeAPI, rmFake.Nonce < uint64Size →
      (runNonceCalls calls rmFake).Nonce = (rmFake.Nonce + calls.length) % uint64Size := by
  induction calls with
  | nil =>
    intro rmFake hn
    simp [runNonceCalls, Nat.mod_eq_of_lt hn]
  | cons c cs ih =>
    intro rmFake _
    have hlt : (runNonceCall rmFake c).2.Nonce < uint64Size := by
      rw [runNonceCall_Nonce]
      exact Nat.mod_lt _ (by decide)
    simp only [runNonceCalls, ih _ hlt, runNonceCall_Nonce, List.length_cons, uint64Size]
    omega

/-- C18: for every initial `uint64` counter value and every sequence of calls,
each a `NextNonce` or a `Send` with any arguments after any setting of
`NonceErr` or `MsgSendErr`, the counter afterwards is the initial value plus the
number of calls, mod 2^64, and a `NextNonce` made next returns one more, mod
2^64. A call that returns an error advances the counter like any other, and with
a `Send` between two `NextNonce` calls the second result is the first plus 2 in
`uint64` arithmetic. -/
theorem Nonce_shared_counter (rmFake : RetrievalMarketClientFakeAPI) (calls : List NonceCall)
    (addr : Address) (hn : rmFake.Nonce < uint64Size) :
    (runNonceCalls calls rmFake).Nonce = (rmFake.Nonce + calls.length) % uint64Size ∧
    (NextNonce (runNonceCalls calls rmFake) addr).1.1
      = (rmFake.Nonce + calls.length + 1) % uint64Size ∧
    (∀ (a : Address) (err : String),
      (runNonceCall rmFake (.nextNonce a (some err))).1 = some err ∧
      (runNonceCall rmFake (.nextNonce a (some err))).2.Nonce
        = (rmFake.Nonce + 1) % uint64Size) ∧
    (∀ (args : SendArgs) (err : String),
      (runNonceCall rmFake (.send args (some err))).1 = some err ∧
      (runNonceCall rmFake (.send args (some err))).2.Nonce
        = (rmFake.Nonce + 1) % uint64Size) ∧
    ∀ (a1 a2 : Address) (args : SendArgs),
      (NextNonce (Send (NextNonce rmFake a1).2 args).2 a2).1.1
        = ((NextNonce rmFake a1).1.1 + 2) % uint64Size ∧
      ((NextNonce (Send (NextNonce rmFake a1).2 args).2 a2).1.1 + uint64Size
        - (NextNonce rmFake a1).1.1) % uint64Size = 2 := by
  have hrun := runNonceCalls_Nonce calls rmFake hn
  refine ⟨hrun, ?_, fun a err => ⟨rfl, rfl⟩, fun args err => ⟨rfl, rfl⟩, fun a1 a2 args => ?_⟩
  · simp only [NextNonce, hrun, uint64Size]
    omega
  · simp only [NextNonce, Send, uint64Size]
    omega

/-- Witness of C18: on `sampleHighNonce`, whose counter is `2 ^ 64 - 2`, a failing
`NextNonce`, a failing `Send` and a `NextNonce` leave the counter at 1. -/
theorem Nonce_shared_counter_witness :
    sampleHighNonce.Nonce < uint64Size ∧
    (runNonceCalls
      [.nextNonce samplePayer (some "nonce failed"), .send sampleSendArgs (some "send failed"),
        .nextNonce samplePayer none] sampleHighNonce).Nonce = 1 ∧
    (NextNonce (runNonceCalls
      [.nextNonce samplePayer (some "nonce failed"), .send sampleSendArgs (some "send failed"),
        .nextNonce samplePayer none] sampleHighNonce) samplePayer).1.1 = 2 :=
  ⟨by decide,
    (Nonce_shared_counter sampleHighNonce
      [.nextNonce samplePayer (some "nonce failed"), .send sampleSendArgs (some "send failed"),
        .nextNonce samplePayer none] samplePayer (by decide)).1.trans (by decide),
    (Nonce_shared_counter sampleHighNonce
      [.nextNonce samplePayer (some "nonce failed"), .send sampleSendArgs (some "send failed"),
        .nextNonce samplePayer none] samplePayer (by decide)).2.1.trans (by decide)⟩

/-! ## Invariants of the reachable states -/

theorem PmtChanEntry.sameHandles_refl (e : PmtChanEntry) : e.sameHandles e :=
  ⟨rfl, rfl, rfl, rfl⟩

theorem PmtChanEntry.sameHandles_trans {e e1 e2 : PmtChanEntry} (h : e.sameHandles e1)
    (h1 : e1.sameHandles e2) : e.sameHandles e2 :=
  ⟨h1.1.trans h.1, h1.2.1.trans h.2.1, h1.2.2.1.trans h.2.2.1, h1.2.2.2.trans h.2.2.2⟩

theorem numbersOnly_refl (m : GoMap PmtChanEntry) : numbersOnly m m :=
  ⟨fun _ e h => ⟨e, h, e.sameHandles_refl⟩, fun _ e h => ⟨e, h, e.sameHandles_refl⟩⟩

theorem numbersOnly_set_make (k : Address) {e e1 : PmtChanEntry} (h : e.sameHandles e1) :
    numbersOnly (GoMap.set GoMap.make k e) (GoMap.set GoMap.make k e1) := by
  constructor
  · intro p x hx
    by_cases hp : p = k
    · subst hp
      rw [GoMap.lookup_set_self] at hx
      exact ⟨e1, GoMap.lookup_set_self _ _ _, by rw [← Option.some.inj hx]; exact h⟩
    · rw [GoMap.lookup_set_ne _ _ _ _ hp, GoMap.lookup_make] at hx
      exact absurd hx (by simp)
  · intro p x hx
    by_cases hp : p = k
    · subst hp
      rw [GoMap.lookup_set_self] at hx
      exact ⟨e, GoMap.lookup_set_self _ _ _, by rw [← Option.some.inj hx]; exact h⟩
    · rw [GoMap.lookup_set_ne _ _ _ _ hp, GoMap.lookup_make] at hx
      exact absurd hx (by simp)

/-- A write from outside changes at most the numbers of the channel entries. -/
theorem OutsideWrite.numbersOnly {f f1 : RetrievalMarketClientFakeAPI} (h : OutsideWrite f f1) :
    numbersOnly f.ExpectedPmtChans f1.ExpectedPmtChans ∧
      numbersOnly f.ActualPmtChans f1.ActualPmtChans := by
  rcases h with ⟨hexp, hact, -, -⟩ | hw
  · rw [hexp, hact]
    exact ⟨numbersOnly_refl _, numbersOnly_refl _⟩
  · cases hw with
    | signedMsg sm sm1 _ => exact ⟨numbersOnly_refl _, numbersOnly_refl _⟩
    | receipt r r1 _ => exact ⟨numbersOnly_refl _, numbersOnly_refl _⟩
    | block b b1 _ => exact ⟨numbersOnly_refl _, numbersOnly_refl _⟩
    | sig s s1 _ => exact ⟨numbersOnly_refl _, numbersOnly_refl _⟩
    | amounts exp act hexp hact => exact ⟨hexp, hact⟩

/-- A write from outside changes neither whether `Sig` is nil nor whether
`ExpectedSignedMsg` is nil. -/
theorem OutsideWrite.keeps_nil {f f1 : RetrievalMarketClientFakeAPI} (h : OutsideWrite f f1) :
    f1.Sig.isSome = f.Sig.isSome ∧ f1.ExpectedSignedMsg.isSome = f.ExpectedSignedMsg.isSome := by
  rcases h with ⟨-, -, hsig, hsm⟩ | hw
  · rw [hsig, hsm]
    exact ⟨rfl, rfl⟩
  · cases hw with
    | signedMsg sm sm1 hsm => exact ⟨rfl, by simp [hsm]⟩
    | receipt r r1 _ => exact ⟨rfl, rfl⟩
    | block b b1 _ => exact ⟨rfl, rfl⟩
    | sig s s1 hs => exact ⟨by simp [hs], rfl⟩
    | amounts exp act _ _ => exact ⟨rfl, rfl⟩

/-- A state reached with fewer writes from outside is reached with more. -/
theorem Reachable.mono {ok : AttoFIL → Prop}
    {ext ext1 : RetrievalMarketClientFakeAPI → RetrievalMarketClientFakeAPI → Prop}
    (hsub : ∀ f f1, ext f f1 → ext1 f f1) {log : List (Address × PmtChanEntry)}
    {f : RetrievalMarketClientFakeAPI} (h : Reachable ok ext log f) : Reachable ok ext1 log f := by
  induction h with
  | new rAddr rNonce bal => exact Reachable.new rAddr rNonce bal
  | stub env from_ to_ value _ hok hstub ih => exact Reachable.stub env from_ to_ value ih hok hstub
  | wait msgCid cb w w1 e _ hwait ih => exact Reachable.wait msgCid cb w w1 e ih hwait
  | nextNonce addr _ ih => exact Reachable.nextNonce addr ih
  | send args _ ih => exact Reachable.send args ih
  | allocateLane client chid _ ih => exact Reachable.allocateLane client chid ih
  | outside _ hstep ih => exact Reachable.outside ih (hsub _ _ hstep)

/-- The invariant of the channel maps. Let `good log p e` hold of every entry
that `StubMessageResponse` stores, survive later stubs, and survive the writes
from outside that `ext` admits, which also keep the `From` address of the stubbed
message. Then in every reachable state the entries of both channel maps are
good, and the payer of the stubbed message has an expected entry. -/
theorem Reachable.entries {ok : AttoFIL → Prop}
    {ext : RetrievalMarketClientFakeAPI → RetrievalMarketClientFakeAPI → Prop}
    (good : List (Address × PmtChanEntry) → Address → PmtChanEntry → Prop)
    (hmono : ∀ log x p e, good log p e → good (x :: log) p e)
    (hnew : ∀ log p r value, ok value →
      good ((p, stubbedEntry r value) :: log) p (stubbedEntry r value))
    (hext : ∀ log f f1, ext f f1 →
      keepsFrom f f1 ∧
      (∀ p e1, f1.ExpectedPmtChans.lookup p = some e1 →
        ∃ e, f.ExpectedPmtChans.lookup p = some e ∧ (good log p e → good log p e1)) ∧
      (∀ p e, f.ExpectedPmtChans.lookup p = some e →
        ∃ e1, f1.ExpectedPmtChans.lookup p = some e1) ∧
      (∀ p e1, f1.ActualPmtChans.lookup p = some e1 →
        ∃ e, f.ActualPmtChans.lookup p = some e ∧ (good log p e → good log p e1)))
    {log : List (Address × PmtChanEntry)} {f : RetrievalMarketClientFakeAPI}
    (h : Reachable ok ext log f) :
    (∀ p e, f.ExpectedPmtChans.lookup p = some e → good log p e) ∧
    (∀ sm, f.ExpectedSignedMsg = some sm →
      ∃ e, f.ExpectedPmtChans.lookup sm.Message.From = some e) ∧
    (∀ p e, f.ActualPmtChans.lookup p = some e → good log p e) := by
  induction h with
  | new rAddr rNonce bal =>
    refine ⟨?_, ?_, ?_⟩
    · intro p e hpe
      simp [NewRetrievalMarketClientFakeAPI, GoMap.lookup_make] at hpe
    · intro sm hsm
      simp [NewRetrievalMarketClientFakeAPI] at hsm
    · intro p e hpe
      simp [NewRetrievalMarketClientFakeAPI, GoMap.lookup_make] at hpe
  | @stub log f f1 env from_ to_ value _ hok hstub ih =>
    obtain ⟨hexp, -, hact⟩ := ih
    obtain ⟨sig, sm, hfrom, -, -, hf⟩ := StubMessageResponse_eq_some hstub
    subst hf
    have hget : GoMap.get (GoMap.set f.ExpectedPmtChans from_
        (stubbedEntry env.randUint64 value)) from_ = stubbedEntry env.randUint64 value := by
      simp [GoMap.get, GoMap.lookup_set_self]
    change (∀ p e, GoMap.lookup (GoMap.set f.ExpectedPmtChans from_
        (stubbedEntry env.randUint64 value)) p = some e →
          good ((from_, GoMap.get (GoMap.set f.ExpectedPmtChans from_
            (stubbedEntry env.randUint64 value)) from_) :: log) p e) ∧
      (∀ sm1, some sm = some sm1 →
        ∃ e, GoMap.lookup (GoMap.set f.ExpectedPmtChans from_
          (stubbedEntry env.randUint64 value)) sm1.Message.From = some e) ∧
      (∀ p e, GoMap.lookup f.ActualPmtChans p = some e →
          good ((from_, GoMap.get (GoMap.set f.ExpectedPmtChans from_
            (stubbedEntry env.randUint64 value)) from_) :: log) p e)
    rw [hget]
    refine ⟨?_, ?_, ?_⟩
    · intro p e hpe
      by_cases hp : p = from_
      · subst hp
        rw [GoMap.lookup_set_self] at hpe
        rw [← Option.some.inj hpe]
        exact hnew log p env.randUint64 value hok
      · rw [GoMap.lookup_set_ne _ _ _ _ hp] at hpe
        exact hmono _ _ _ _ (hexp p e hpe)
    · intro sm1 hsm1
      have hsmeq : sm = sm1 := Option.some.inj hsm1
      subst hsmeq
      exact ⟨_, by rw [hfrom]; exact GoMap.lookup_set_self _ _ _⟩
    · intro p e hpe
      exact hmono _ _ _ _ (hact p e hpe)
  | @wait log f f1 σ msgCid cb w w1 e _ hwait ih =>
    rcases Wait_eq_some hwait with hf | ⟨-, sm, hsm, hf⟩
    · subst hf
      exact ih
    · obtain ⟨hexp, hmsg, hact⟩ := ih
      subst hf
      refine ⟨hexp, hmsg, ?_⟩
      intro p e hpe
      have hpe1 : GoMap.lookup (GoMap.set f.ActualPmtChans sm.Message.From
          (GoMap.get f.ExpectedPmtChans sm.Message.From)) p = some e := hpe
      by_cases hp : p = sm.Message.From
      · subst hp
        obtain ⟨e1, he1⟩ := hmsg sm hsm
        rw [GoMap.lookup_set_self] at hpe1
        have hget : GoMap.get f.ExpectedPmtChans sm.Message.From = e1 := by
          simp [GoMap.get, he1]
        rw [hget] at hpe1
        rw [← Option.some.inj hpe1]
        exact hexp _ _ he1
      · rw [GoMap.lookup_set_ne _ _ _ _ hp] at hpe1
        exact hact p e hpe1
  | nextNonce addr _ ih => exact ih
  | send args _ ih => exact ih
  | allocateLane client chid _ ih =>
    rename_i log f
    unfold AllocateLane
    split
    · exact ih
    · exact ih
  | @outside log f f1 _ hstep ih =>
    obtain ⟨hexp, hmsg, hact⟩ := ih
    obtain ⟨hfrom, hback, hfwd, hactback⟩ := hext log f f1 hstep
    refine ⟨?_, ?_, ?_⟩
    · intro p e1 hpe1
      obtain ⟨e, hpe, hgood⟩ := hback p e1 hpe1
      exact hgood (hexp p e hpe)
    · intro sm1 hsm1
      unfold keepsFrom at hfrom
      rw [hsm1] at hfrom
      cases hsm : f.ExpectedSignedMsg with
      | none => rw [hsm] at hfrom; simp at hfrom
      | some sm =>
        rw [hsm] at hfrom
        have hsame : sm1.Message.From = sm.Message.From := by simpa using hfrom
        obtain ⟨e, he⟩ := hmsg sm hsm
        rw [hsame]
        exact hfwd _ e he
    · intro p e1 hpe1
      obtain ⟨e, hpe, hgood⟩ := hactback p e1 hpe1
      exact hgood (hact p e hpe)

/-- In every reachable state `Sig` and `ExpectedSignedMsg` are nil when
`StubMessageResponse` has not been called and set when it has, provided the
writes from outside never change whether they are nil. -/
theorem Reachable.stubbed_fields {ok : AttoFIL → Prop}
    {ext : RetrievalMarketClientFakeAPI → RetrievalMarketClientFakeAPI → Prop}
    (hext : ∀ f f1, ext f f1 →
      f1.Sig.isSome = f.Sig.isSome ∧ f1.ExpectedSignedMsg.isSome = f.ExpectedSignedMsg.isSome)
    {log : List (Address × PmtChanEntry)} {f : RetrievalMarketClientFakeAPI}
    (h : Reachable ok ext log f) :
    (log = [] → f.Sig = none ∧ f.ExpectedSignedMsg = none) ∧
    (log ≠ [] → (∃ sig, f.Sig = some sig) ∧ ∃ sm, f.ExpectedSignedMsg = some sm) := by
  induction h with
  | new rAddr rNonce bal => exact ⟨fun _ => ⟨rfl, rfl⟩, fun hne => absurd rfl hne⟩
  | @stub log f f1 env from_ to_ value _ hok hstub ih =>
    obtain ⟨sig, sm, -, -, -, hf⟩ := StubMessageResponse_eq_some hstub
    subst hf
    exact ⟨fun hnil => absurd hnil (List.cons_ne_nil _ _), fun _ => ⟨⟨sig, rfl⟩, ⟨sm, rfl⟩⟩⟩
  | @wait log f f1 σ msgCid cb w w1 e _ hwait ih =>
    rcases Wait_eq_some hwait with hf | ⟨-, sm, hsm, hf⟩
    · subst hf
      exact ih
    · subst hf
      exact ih
  | nextNonce addr _ ih => exact ih
  | send args _ ih => exact ih
  | allocateLane client chid _ ih =>
    rename_i log f
    unfold AllocateLane
    split
    · exact ih
    · exact ih
  | @outside log f f1 _ hstep ih =>
    obtain ⟨hsig, hsm⟩ := hext f f1 hstep
    obtain ⟨hnil, hset⟩ := ih
    refine ⟨fun hl => ?_, fun hl => ?_⟩
    · obtain ⟨h1, h2⟩ := hnil hl
      rw [h1] at hsig
      rw [h2] at hsm
      exact ⟨by simpa using hsig, by simpa using hsm⟩
    · obtain ⟨⟨s, h1⟩, ⟨m, h2⟩⟩ := hset hl
      rw [h1] at hsig
      rw [h2] at hsm
      exact ⟨Option.isSome_iff_exists.mp (by simpa using hsig),
        Option.isSome_iff_exists.mp (by simpa using hsm)⟩

theorem sampleStubbed_eq (value : AttoFIL) :
    StubMessageResponse sampleEnv sampleFresh samplePayer samplePayee value
      = some (sampleStubbed value) := rfl

theorem sampleCreated_eq (value : AttoFIL) :
    Wait (sampleStubbed value) Cid.Undef sampleCallback 0 = some (none, sampleCreated value, 1) :=
  rfl

/-- The fake `sampleStubbed value` is reached by one `StubMessageResponse`. -/
theorem sampleStubbed_reachable (ok : AttoFIL → Prop)
    (ext : RetrievalMarketClientFakeAPI → RetrievalMarketClientFakeAPI → Prop)
    (value : AttoFIL) (hok : ok value) :
    Reachable ok ext [(samplePayer, sampleEntry value)] (sampleStubbed value) :=
  Reachable.stub sampleEnv samplePayer samplePayee value (Reachable.new 1 41 ⟨some 5⟩) hok
    (sampleStubbed_eq value)

/-- The fake `sampleCreated value` is reached by one `StubMessageResponse` and
one `Wait`. -/
theorem sampleCreated_reachable (ok : AttoFIL → Prop)
    (ext : RetrievalMarketClientFakeAPI → RetrievalMarketClientFakeAPI → Prop)
    (value : AttoFIL) (hok : ok value) :
    Reachable ok ext [(samplePayer, sampleEntry value)] (sampleCreated value) :=
  Reachable.wait Cid.Undef sampleCallback 0 1 none (sampleStubbed_reachable ok ext value hok)
    (sampleCreated_eq value)

/-- A holder of the `*big.Int` of the funding value 1000 sets it to -5 after the
channel was created: the fake `sampleCreated (-5)` is reached from
`sampleCreated 1000` by writes through shared pointers that leave `From`. -/
theorem sampleOverwritten_reachable (ok : AttoFIL → Prop) (hok : ok ⟨some 1000⟩) :
    Reachable ok leavesFrom [(samplePayer, sampleEntry ⟨some 1000⟩)]
      (sampleCreated ⟨some (-5)⟩) := by
  have hentry : (sampleEntry ⟨some 1000⟩).sameHandles (sampleEntry ⟨some (-5)⟩) :=
    ⟨rfl, rfl, rfl, rfl⟩
  have h1 : Reachable ok leavesFrom [(samplePayer, sampleEntry ⟨some 1000⟩)]
      { sampleCreated ⟨some 1000⟩ with
        ExpectedPmtChans := GoMap.set GoMap.make samplePayer (sampleEntry ⟨some (-5)⟩)
        ActualPmtChans := GoMap.set GoMap.make samplePayer (sampleEntry ⟨some (-5)⟩) } :=
    Reachable.outside (sampleCreated_reachable ok leavesFrom ⟨some 1000⟩ hok)
      ⟨Or.inr (SharedWrite.amounts _ _ _ (numbersOnly_set_make samplePayer hentry)
        (numbersOnly_set_make samplePayer hentry)), rfl⟩
  exact Reachable.outside h1
    ⟨Or.inr (SharedWrite.signedMsg _ (sampleMessage ⟨some 1000⟩) (sampleMessage ⟨some (-5)⟩) rfl),
      rfl⟩

/-- The write of `From` through the pointer handed to the continuation. -/
theorem sampleRedirected_write : SharedWrite (sampleCreated ⟨some 1000⟩) sampleRedirected :=
  SharedWrite.signedMsg _ (sampleMessage ⟨some 1000⟩) sampleRedirectedMessage rfl

theorem sampleMisfiled_eq :
    Wait sampleRedirected Cid.Undef sampleCallback 0 = some (none, sampleMisfiled, 1) := rfl

/-- The fake `sampleMisfiled` is reached by a stub of the value 1000, a `Wait`
whose continuation writes `From`, and a second `Wait`. -/
theorem sampleMisfiled_reachable (ok : AttoFIL → Prop) (hok : ok ⟨some 1000⟩) :
    Reachable ok OutsideWrite [(samplePayer, sampleEntry ⟨some 1000⟩)] sampleMisfiled :=
  Reachable.wait Cid.Undef sampleCallback 0 1 none
    (Reachable.outside (sampleCreated_reachable ok OutsideWrite ⟨some 1000⟩ hok)
      (Or.inr sampleRedirected_write))
    sampleMisfiled_eq

/-- The assignment of `SigErr` and `WaitErr` by the test. -/
theorem sampleSigErr_sets : TestSets (sampleCreated ⟨some 1000⟩) sampleSigErr :=
  ⟨rfl, rfl, rfl, rfl⟩

/-- The fake `sampleSigErr` is reached without a write to `From` or to an
amount. -/
theorem sampleSigErr_reachable (ok : AttoFIL → Prop) (hok : ok ⟨some 1000⟩) :
    Reachable ok leavesFromAndAmounts [(samplePayer, sampleEntry ⟨some 1000⟩)] sampleSigErr :=
  Reachable.outside (sampleCreated_reachable ok leavesFromAndAmounts ⟨some 1000⟩ hok)
    ⟨Or.inl sampleSigErr_sets, rfl, rfl, rfl⟩

/-! ## The funds invariant -/

/-- C12, refuted as stated, at three inputs. With the funding value -1 and no
write from outside the methods, stub and `Wait` reach `sampleCreated (-1)`,
whose registry entry has `Redeemed = 0` and `FundsAvail = -1`, and
`GetChannelInfo` returns `Redeemed = 0` with `Amount = -1`. With the funding
value 1000, a holder of its `*big.Int` sets it to -5 after the creation, and
the registry entry has `FundsAvail = -5`. With the funding value 1000, a
continuation writes `From` through its pointer, and the next `Wait` registers
the zero entry, whose amounts are nil pointers. -/
theorem Redeemed_le_FundsAvail_counterexample :
    (Reachable anyValue noOutsideWrite [(samplePayer, sampleEntry ⟨some (-1)⟩)]
        (sampleCreated ⟨some (-1)⟩) ∧
      (sampleCreated ⟨some (-1)⟩).ActualPmtChans.lookup samplePayer =
        some { Payee := Address.Undef
               Redeemed := ⟨some 0⟩
               ChannelID := NewIDAddress 77
               FundsAvail := ⟨some (-1)⟩ } ∧
      amountLe (some 0) (some (-1)) = false ∧
      GetChannelInfo (sampleCreated ⟨some (-1)⟩) IterOrder.stored (NewIDAddress 77) =
        (samplePayer,
          { Payee := Address.Undef, Amount := ⟨some (-1)⟩, Redeemed := ⟨some 0⟩ }, none)) ∧
    (Reachable nonNegValue OutsideWrite [(samplePayer, sampleEntry ⟨some 1000⟩)]
        (sampleCreated ⟨some (-5)⟩) ∧
      ((sampleCreated ⟨some (-5)⟩).ActualPmtChans.lookup samplePayer).map
        (fun e => (e.Redeemed.Int, e.FundsAvail.Int, amountLe e.Redeemed.Int e.FundsAvail.Int))
        = some (some 0, some (-5), false)) ∧
    (Reachable nonNegValue OutsideWrite [(samplePayer, sampleEntry ⟨some 1000⟩)]
        sampleMisfiled ∧
      (sampleMisfiled.ActualPmtChans.lookup samplePayee).map
        (fun e => (e.Redeemed.Int, e.FundsAvail.Int, amountLe e.Redeemed.Int e.FundsAvail.Int))
        = some (none, none, false)) :=
  ⟨⟨sampleCreated_reachable anyValue noOutsideWrite ⟨some (-1)⟩ trivial,
      by decide, by decide, by decide⟩,
    ⟨Reachable.mono (fun _ _ hstep => hstep.1)
        (sampleOverwritten_reachable nonNegValue ⟨1000, rfl, by decide⟩), by decide⟩,
    ⟨sampleMisfiled_reachable nonNegValue ⟨1000, rfl, by decide⟩, by decide⟩⟩

/-- C12, amended: in every state reached from the constructor by calls of
`StubMessageResponse` whose funding values are set and not negative, by calls of
the fake's methods and by writes from outside that write neither an amount of a
channel entry nor the `From` address of the stubbed message, every entry of
`ActualPmtChans` has `Redeemed <= FundsAvail`, and every `ChannelInfo` that
`GetChannelInfo` returns with a nil error has `Redeemed <= Amount`. -/
theorem Redeemed_le_FundsAvail {log : List (Address × PmtChanEntry)}
    {f : RetrievalMarketClientFakeAPI} (h : Reachable nonNegValue leavesFromAndAmounts log f) :
    (∀ p e, f.ActualPmtChans.lookup p = some e →
      amountLe e.Redeemed.Int e.FundsAvail.Int = true) ∧
    ∀ (order : IterOrder (Sigma fun _ : Address => PmtChanEntry)) (c : Address),
      (GetChannelInfo f order c).2.2 = none →
        amountLe (GetChannelInfo f order c).2.1.Redeemed.Int
          (GetChannelInfo f order c).2.1.Amount.Int = true := by
  have hinv := Reachable.entries
    (fun _ _ e => amountLe e.Redeemed.Int e.FundsAvail.Int = true)
    (fun _ _ _ _ hgood => hgood)
    (fun _ _ r value hok => by
      obtain ⟨n, hn, hn0⟩ := hok
      simp [stubbedEntry, amountLe, tokenamount.FromInt, hn, hn0])
    (fun _ f f1 hstep => by
      obtain ⟨-, hfrom, hexp, hact⟩ := hstep
      refine ⟨hfrom, fun p e1 hpe1 => ⟨e1, by rw [← hexp]; exact hpe1, fun hg => hg⟩,
        fun p e hpe => ⟨e, by rw [hexp]; exact hpe⟩,
        fun p e1 hpe1 => ⟨e1, by rw [← hact]; exact hpe1, fun hg => hg⟩⟩)
    h
  have hentry : ∀ p e, f.ActualPmtChans.lookup p = some e →
      amountLe e.Redeemed.Int e.FundsAvail.Int = true := hinv.2.2
  refine ⟨hentry, fun order c herr => ?_⟩
  unfold GetChannelInfo at herr ⊢
  rcases GetChannelInfo.loop_spec c (order.visit f.ActualPmtChans.entries) with
    ⟨hfail, -⟩ | ⟨⟨p, e⟩, hx, -, hfound⟩
  · simp [hfail] at herr
  · rw [hfound]
    exact hentry p e ((GoMap.mem_visit_iff _ order p e).mp hx)

/-- Witness of C12 (amended): `sampleSigErr`, reached by a stub of the value
1000, a `Wait` and an assignment of error fields by the test. -/
theorem Redeemed_le_FundsAvail_witness :
    Reachable nonNegValue leavesFromAndAmounts [(samplePayer, sampleEntry ⟨some 1000⟩)]
      sampleSigErr ∧
    ((∀ p e, sampleSigErr.ActualPmtChans.lookup p = some e →
      amountLe e.Redeemed.Int e.FundsAvail.Int = true) ∧
    ∀ (order : IterOrder (Sigma fun _ : Address => PmtChanEntry)) (c : Address),
      (GetChannelInfo sampleSigErr order c).2.2 = none →
        amountLe (GetChannelInfo sampleSigErr order c).2.1.Redeemed.Int
          (GetChannelInfo sampleSigErr order c).2.1.Amount.Int = true) :=
  ⟨sampleSigErr_reachable nonNegValue ⟨1000, rfl, by decide⟩,
    Redeemed_le_FundsAvail (sampleSigErr_reachable nonNegValue ⟨1000, rfl, by decide⟩)⟩

/-! ## Registered entries come from the stub -/

/-- C16, refuted as stated: a stub of the value 1000 and a `Wait` reach
`sampleCreated 1000`; its continuation writes `sm.Message.From = samplePayee`
through the `*SignedMessage` it was handed, and a second `Wait` reaches
`sampleMisfiled`. There `samplePayee` has a registry entry that no stub stored
and whose `ChannelID` is undefined, `GetChannel samplePayee` returns the
undefined address although the payer has an entry, and `GetChannelInfo` of the
undefined address succeeds. -/
theorem registry_entries_from_stub_counterexample :
    Reachable anyValue OutsideWrite [(samplePayer, sampleEntry ⟨some 1000⟩)] sampleMisfiled ∧
    SharedWrite (sampleCreated ⟨some 1000⟩) sampleRedirected ∧
    sampleRedirected.ExpectedSignedMsg.map (fun sm => sm.Message.From) = some samplePayee ∧
    Wait sampleRedirected Cid.Undef sampleCallback 0 = some (none, sampleMisfiled, 1) ∧
    sampleMisfiled.ActualPmtChans.lookup samplePayee =
      some { Payee := Address.Undef
             Redeemed := ⟨none⟩
             ChannelID := Address.Undef
             FundsAvail := ⟨none⟩ } ∧
    (∀ e, (samplePayee, e) ∉ [(samplePayer, sampleEntry ⟨some 1000⟩)]) ∧
    GetChannel sampleMisfiled samplePayee samplePayer = (Address.Undef, none) ∧
    sampleMisfiled.ActualPmtChans.lookup samplePayee ≠ none ∧
    GetChannelInfo sampleMisfiled IterOrder.stored Address.Undef =
      (samplePayee, { Payee := Address.Undef, Amount := ⟨none⟩, Redeemed := ⟨none⟩ }, none) :=
  ⟨sampleMisfiled_reachable anyValue trivial, sampleRedirected_write, by decide, rfl, by decide,
    fun e he => by
      have hp : samplePayee = samplePayer ∧ e = sampleEntry ⟨some 1000⟩ := by simpa using he
      exact absurd hp.1 (by decide),
    by decide, by decide, by decide⟩

/-- C16, amended: in every state reached from the constructor by calls of
`StubMessageResponse`, by calls of the fake's methods and by writes from outside
that do not write the `From` address of the stubbed message, every entry of
`ActualPmtChans` holds the addresses and amount pointers of an entry that
`StubMessageResponse` stored for the same payer, and its `ChannelID` is defined;
so `GetChannel` returns the undefined address exactly for the payers without a
registry entry, and `GetChannelInfo` of the undefined address fails in every
iteration order. When moreover no amount of a channel entry is written from
outside, every entry of `ActualPmtChans` is equal to an entry that
`StubMessageResponse` stored for the same payer. -/
theorem registry_entries_from_stub :
    (∀ (log : List (Address × PmtChanEntry)) (f : RetrievalMarketClientFakeAPI),
      Reachable anyValue leavesFrom log f →
        (∀ p e, f.ActualPmtChans.lookup p = some e →
          (∃ e0, (p, e0) ∈ log ∧ e0.sameHandles e) ∧ e.ChannelID ≠ Address.Undef) ∧
        (∀ p q, (GetChannel f p q).1 = Address.Undef ↔ f.ActualPmtChans.lookup p = none) ∧
        ∀ order : IterOrder (Sigma fun _ : Address => PmtChanEntry),
          (GetChannelInfo f order Address.Undef).2.2 ≠ none) ∧
    ∀ (log : List (Address × PmtChanEntry)) (f : RetrievalMarketClientFakeAPI),
      Reachable anyValue leavesFromAndAmounts log f →
        ∀ p e, f.ActualPmtChans.lookup p = some e → (p, e) ∈ log := by
  constructor
  · intro log f h
    have hinv := Reachable.entries
      (fun log p e => (∃ e0, (p, e0) ∈ log ∧ e0.sameHandles e) ∧ e.ChannelID ≠ Address.Undef)
      (fun _ _ _ _ hgood =>
        ⟨hgood.1.imp fun _ he0 => ⟨List.mem_cons_of_mem _ he0.1, he0.2⟩, hgood.2⟩)
      (fun _ _ r value _ =>
        ⟨⟨_, List.mem_cons_self _ _, PmtChanEntry.sameHandles_refl _⟩, NewIDAddress_ne_Undef r⟩)
      (fun _ f f1 hstep => by
        obtain ⟨hout, hfrom⟩ := hstep
        obtain ⟨⟨hexpfwd, hexpback⟩, -, hactback⟩ := hout.numbersOnly
        have hkeep : ∀ (log : List (Address × PmtChanEntry)) (p : Address)
            (e e1 : PmtChanEntry), e.sameHandles e1 →
            ((∃ e0, (p, e0) ∈ log ∧ e0.sameHandles e) ∧ e.ChannelID ≠ Address.Undef) →
            ((∃ e0, (p, e0) ∈ log ∧ e0.sameHandles e1) ∧ e1.ChannelID ≠ Address.Undef) := by
          intro log p e e1 hsame hgood
          refine ⟨hgood.1.imp fun _ he0 =>
            ⟨he0.1, PmtChanEntry.sameHandles_trans he0.2 hsame⟩, ?_⟩
          rw [hsame.2.1]
          exact hgood.2
        refine ⟨hfrom, fun p e1 hpe1 => ?_, fun p e hpe => ?_, fun p e1 hpe1 => ?_⟩
        · obtain ⟨e, hpe, hsame⟩ := hexpback p e1 hpe1
          exact ⟨e, hpe, hkeep _ p e e1 hsame⟩
        · obtain ⟨e1, hpe1, -⟩ := hexpfwd p e hpe
          exact ⟨e1, hpe1⟩
        · obtain ⟨e, hpe, hsame⟩ := hactback p e1 hpe1
          exact ⟨e, hpe, hkeep _ p e e1 hsame⟩)
      h
    have hentry := hinv.2.2
    refine ⟨hentry, fun p q => ?_, fun order => ?_⟩
    · unfold GetChannel
      cases hpe : f.ActualPmtChans.lookup p with
      | none => simp
      | some e => simpa using (hentry p e hpe).2
    · unfold GetChannelInfo
      rcases GetChannelInfo.loop_spec Address.Undef (order.visit f.ActualPmtChans.entries) with
        ⟨hfail, -⟩ | ⟨⟨p, e⟩, hx, hxc, -⟩
      · simp [hfail]
      · exact absurd hxc (hentry p e ((GoMap.mem_visit_iff _ order p e).mp hx)).2
  · intro log f h
    exact (Reachable.entries (fun log p e => (p, e) ∈ log)
      (fun _ _ _ _ hgood => List.mem_cons_of_mem _ hgood)
      (fun _ _ _ _ _ => List.mem_cons_self _ _)
      (fun _ f f1 hstep => by
        obtain ⟨-, hfrom, hexp, hact⟩ := hstep
        refine ⟨hfrom, fun p e1 hpe1 => ⟨e1, by rw [← hexp]; exact hpe1, fun hg => hg⟩,
          fun p e hpe => ⟨e, by rw [hexp]; exact hpe⟩,
          fun p e1 hpe1 => ⟨e1, by rw [← hact]; exact hpe1, fun hg => hg⟩⟩)
      h).2.2

/-- Witness of C16 (amended): `sampleCreated (-5)`, reached with a write to the
shared amount, and `sampleSigErr`, reached without one. -/
theorem registry_entries_from_stub_witness :
    Reachable anyValue leavesFrom [(samplePayer, sampleEntry ⟨some 1000⟩)]
      (sampleCreated ⟨some (-5)⟩) ∧
    ((∀ p e, (sampleCreated ⟨some (-5)⟩).ActualPmtChans.lookup p = some e →
      (∃ e0, (p, e0) ∈ [(samplePayer, sampleEntry ⟨some 1000⟩)] ∧ e0.sameHandles e) ∧
        e.ChannelID ≠ Address.Undef) ∧
    (∀ p q, (GetChannel (sampleCreated ⟨some (-5)⟩) p q).1 = Address.Undef ↔
      (sampleCreated ⟨some (-5)⟩).ActualPmtChans.lookup p = none) ∧
    ∀ order : IterOrder (Sigma fun _ : Address => PmtChanEntry),
      (GetChannelInfo (sampleCreated ⟨some (-5)⟩) order Address.Undef).2.2 ≠ none) ∧
    Reachable anyValue leavesFromAndAmounts [(samplePayer, sampleEntry ⟨some 1000⟩)]
      sampleSigErr ∧
    ∀ p e, sampleSigErr.ActualPmtChans.lookup p = some e →
      (p, e) ∈ [(samplePayer, sampleEntry ⟨some 1000⟩)] :=
  ⟨sampleOverwritten_reachable anyValue trivial,
    registry_entries_from_stub.1 _ _ (sampleOverwritten_reachable anyValue trivial),
    sampleSigErr_reachable anyValue trivial,
    registry_entries_from_stub.2 _ _ (sampleSigErr_reachable anyValue trivial)⟩

/-! ## Nil-safety of the stubbed fields -/

/-- C19: in every state reached from the constructor by calls of
`StubMessageResponse` and of the fake's methods, by assignments of the test and
by writes through shared pointers, if `StubMessageResponse` was called at least
once then `Sig` is set, `SignBytes` returns `(Sig.Data, SigErr)` for every data
and account, whatever `SigErr` is set to, and `Wait` with a nil `WaitErr`
returns for every continuation; if `StubMessageResponse` was never called,
`SignBytes` yields the failure value, and so does `Wait` with a nil `WaitErr`. -/
theorem stubbed_fields_nil_safety :
    (∀ (log : List (Address × PmtChanEntry)) (f : RetrievalMarketClientFakeAPI),
      Reachable anyValue OutsideWrite log f → log ≠ [] →
        ∃ sig, f.Sig = some sig ∧
          (∀ data a, SignBytes f data a = some (sig.Data, f.SigErr)) ∧
          ∀ (σ : Type) (cb : WaitCallback σ) (w : σ) (msgCid : Cid), f.WaitErr = none →
            ∃ r, Wait f msgCid cb w = some r) ∧
    ∀ f : RetrievalMarketClientFakeAPI, Reachable anyValue OutsideWrite [] f →
      (∀ data a, SignBytes f data a = none) ∧
      ∀ (σ : Type) (cb : WaitCallback σ) (w : σ) (msgCid : Cid), f.WaitErr = none →
        Wait f msgCid cb w = none := by
  refine ⟨fun log f h hne => ?_, fun f h => ?_⟩
  · obtain ⟨-, hset⟩ := Reachable.stubbed_fields (fun _ _ hstep => hstep.keeps_nil) h
    obtain ⟨⟨sig, hsig⟩, sm, hsm⟩ := hset hne
    refine ⟨sig, hsig, fun data a => by simp [SignBytes, hsig], fun σ cb w msgCid hw => ?_⟩
    exact ⟨_, Wait_eq_of_no_WaitErr f msgCid cb w sm hw hsm⟩
  · obtain ⟨hunset, -⟩ := Reachable.stubbed_fields (fun _ _ hstep => hstep.keeps_nil) h
    obtain ⟨hsig, hsm⟩ := hunset rfl
    exact ⟨fun data a => by simp [SignBytes, hsig],
      fun σ cb w msgCid hw => by simp [Wait, hw, hsm]⟩

/-- Witness of C19: `sampleSigErr`, where the test has set `SigErr`, returns the
stubbed signature together with that error; `Wait` returns on
`sampleCreated 1000`; on `sampleFresh`, where nothing was stubbed, both yield the
failure value. -/
theorem stubbed_fields_nil_safety_witness :
    Reachable anyValue OutsideWrite [(samplePayer, sampleEntry ⟨some 1000⟩)] sampleSigErr ∧
    sampleSigErr.SigErr = some "sign failed" ∧
    (∀ data a, SignBytes sampleSigErr data a = some ([9, 0, 2], some "sign failed")) ∧
    (∃ r, Wait (sampleCreated ⟨some 1000⟩) Cid.Undef sampleCallback 0 = some r) ∧
    (∀ data a, SignBytes sampleFresh data a = none) ∧
    Wait sampleFresh Cid.Undef sampleCallback 0 = none := by
  have hreach : Reachable anyValue OutsideWrite [(samplePayer, sampleEntry ⟨some 1000⟩)]
      sampleSigErr :=
    Reachable.mono (fun _ _ hstep => hstep.1) (sampleSigErr_reachable anyValue trivial)
  obtain ⟨sig, hsig, hsign, -⟩ :=
    stubbed_fields_nil_safety.1 _ _ hreach (List.cons_ne_nil _ _)
  have hsigeq : sig = { SigType := KTBLS, Data := [9, 0, 2] } :=
    (Option.some.inj hsig).symm
  subst hsigeq
  obtain ⟨-, -, -, hwait⟩ :=
    stubbed_fields_nil_safety.1 _ _
      (sampleCreated_reachable anyValue OutsideWrite ⟨some 1000⟩ trivial)
      (List.cons_ne_nil _ _)
  obtain ⟨hfresh, hfreshWait⟩ :=
    stubbed_fields_nil_safety.2 _
      (Reachable.new 1 41 ⟨some 5⟩ : Reachable anyValue OutsideWrite [] sampleFresh)
  exact ⟨hreach, rfl, hsign, hwait Nat sampleCallback 0 Cid.Undef rfl, hfresh,
    hfreshWait Nat sampleCallback 0 Cid.Undef rfl⟩

end retrievalmarketconnector
